import Mathlib

/-!
# BaseJSONWriter: the document state machine of `src/json/BaseJSONWriter.h`

A shallow embedding of `json::BaseJSONWriter`.

* The writer's private state (`blocks`, `block`) and its public field
  `defaultDataLineSize` are the fields of `BaseJSONWriter`.
* The pure virtual `write...` members are the sink.  Every call made to one of
  them is appended, in order, to the field `calls`.  The only virtual member
  whose answer the writer looks at is `writeOpenData`; it is the field of `Sink`.
* A failing `assert` aborts the program.  It is modelled as `Except.error` with the
  asserted message as a `Violation`; the asserts of a function are tested in the
  order of the source.
* `long long` members are `Int`, `unsigned int` members are `Nat`; the one place
  where the source can wrap (`++block.lineSize`) is reduced modulo `2 ^ 32`.
* A `const T *` buffer with its `size`, a `T[n]` and a `std::vector<T>` are the
  list of their elements, `sizeof(T)` is a parameter.  The `size_t` count and byte
  size of a sequence held in memory, and the count passed on as a `long long`
  capacity, are exact, so they are not reduced.
* Values are the scalar kinds that have a `writeValue` overload.  A `Serializable`
  value runs user code (`serialize`) on the writer and is outside the embedding.
-/

namespace json

/-- The primitive kinds that have a `writeValue` overload (lines 169-180), with
`std::string` going through `const char *`.  Floating point payloads are carried
as their bit pattern; the writer never inspects a payload. -/
inductive Scalar where
  | str (value : String)
  | bool (value : Bool)
  | char (value : Int)
  | short (value : Int)
  | int (value : Int)
  | long (value : Int)
  | float (bits : Nat)
  | double (bits : Nat)
  | uchar (value : Nat)
  | ushort (value : Nat)
  | uint (value : Nat)
  | ulong (value : Nat)
  deriving DecidableEq, Repr

/-- The calls the writer makes to its virtual members (lines 163-184). -/
inductive Event where
  | writeOpenObject (varsize : Bool) (size : Int) (inl : Bool)
  | writeCloseObject (varsize : Bool) (size : Int) (inl : Bool)
  | writeOpenArray (varsize : Bool) (size : Int) (inl : Bool)
  | writeCloseArray (varsize : Bool) (size : Int) (inl : Bool)
  | writeNextValue (first : Bool) (newline : Bool)
  | writeNull
  | writeValue (value : Scalar) (iskey : Bool)
  | writeOpenData (items : Nat) (bytes : Nat)
  | writeDataItem (value : List Scalar) (bytes : Nat)
  | writeCloseData (items : Nat) (bytes : Nat)
  deriving DecidableEq, Repr

/-- The messages of the asserts of the class. -/
inductive Violation where
  /-- Message "Can only write key-value pairs within an object". -/
  | pairsOnlyInObject
  /-- Message "Must start with an array or an object". -/
  | mustStartWithBlock
  /-- Message "Can only write one object or array per instance". -/
  | oneBlockPerInstance
  /-- Message "Block capacity exceeded". -/
  | capacityExceeded
  /-- Message "Unknown block type". -/
  | unknownBlockType
  /-- Message "Unmatched blocks". -/
  | unmatchedBlocks
  /-- Message "Reserved capacity not reached yet". -/
  | capacityNotReached
  /-- Message "Key written without value". -/
  | keyWithoutValue
  /-- Message "Key not allowed". -/
  | keyNotAllowed
  /-- Message "No key written to assign". -/
  | noKeyToAssign
  /-- Message "Unclosed object or array". -/
  | unclosed
  deriving DecidableEq, Repr

/-- The enum `Block::Type` (line 100). -/
inductive BlockType where
  | ROOT
  | OBJECT
  | ARRAY
  deriving DecidableEq, Repr

/-- The struct `Block` (lines 99-112). -/
structure Block where
  type : BlockType
  capacity : Int
  size : Int
  maxLineSize : Nat
  lineSize : Nat
  wroteKey : Bool
  deriving DecidableEq, Repr

/-- The constructor `Block(type, capacity, maxLineSize)` (lines 110-111). -/
def Block.new (type : BlockType) (capacity : Int) (maxLineSize : Nat) : Block :=
  { type := type, capacity := capacity, size := 0, maxLineSize := maxLineSize,
    lineSize := 0, wroteKey := false }

/-- The writer: `blocks` is the `std::stack`, top first; `block` the current frame;
`calls` the calls made to the sink so far, oldest first. -/
structure BaseJSONWriter where
  blocks : List Block
  block : Block
  defaultDataLineSize : Nat
  calls : List Event
  deriving DecidableEq, Repr

/-- The part of the sink the writer listens to: the answer of `writeOpenData`. -/
structure Sink where
  writeOpenData : Nat → Nat → Bool

/-- The default `writeOpenData` of the base class (line 182): decline. -/
def Sink.base : Sink := { writeOpenData := fun _ _ => false }

/-- A sink whose `writeOpenData` override accepts every block. -/
def Sink.accepting : Sink := { writeOpenData := fun _ _ => true }

/-- The constant `useDefaultSize` (line 65): `(1 << 16) - 1`. -/
def useDefaultSize : Nat := 65535

/-- The constructor `BaseJSONWriter()` (line 269), default arguments of `Block` filled in. -/
def BaseJSONWriter.new : BaseJSONWriter :=
  { blocks := [], block := Block.new .ROOT (-1) 0, defaultDataLineSize := 32, calls := [] }

/-- A call to a virtual member of the sink. -/
def emit (e : Event) (w : BaseJSONWriter) : BaseJSONWriter :=
  { w with calls := w.calls ++ [e] }

/-- The member `inArray` (lines 288-290). -/
def inArray (w : BaseJSONWriter) : Bool := w.block.type == .ARRAY

/-- The member `inObject` (lines 292-294). -/
def inObject (w : BaseJSONWriter) : Bool := w.block.type == .OBJECT

/-- The member `nextValue` (lines 118-127).  `block.size++ == 0` reads the old size,
`++block.lineSize` is an `unsigned int` increment. -/
def nextValue (ispair isblock : Bool) (w : BaseJSONWriter) : Except Violation BaseJSONWriter :=
  if (ispair = true ∧ w.block.type ≠ .OBJECT) ∨ (ispair = false ∧ w.block.type = .OBJECT) then
    .error .pairsOnlyInObject
  else if ¬ (isblock = true ∨ w.block.type ≠ .ROOT) then
    .error .mustStartWithBlock
  else if ¬ (w.block.size = 0 ∨ w.block.type ≠ .ROOT) then
    .error .oneBlockPerInstance
  else if ¬ (w.block.capacity < 0 ∨ w.block.size < w.block.capacity) then
    .error .capacityExceeded
  else
    let lineSize := (w.block.lineSize + 1) % 4294967296
    let first : Bool := decide (w.block.size = 0)
    let newline : Bool := decide (lineSize > w.block.maxLineSize)
    .ok (emit (.writeNextValue first newline)
      { w with block := { w.block with
          size := w.block.size + 1
          lineSize := if lineSize > w.block.maxLineSize then 1 else lineSize } })

/-- The member `checkKey` (lines 187-195): the returned flag and the writer after it. -/
def checkKey (allowKey : Bool) (w : BaseJSONWriter) : Except Violation (Bool × BaseJSONWriter) :=
  if inObject w = false then
    .ok (false, w)
  else
    let wroteKey := !w.block.wroteKey
    if ¬ (allowKey = true ∨ wroteKey = false) then
      .error .keyNotAllowed
    else
      .ok (!wroteKey, { w with block := { w.block with wroteKey := wroteKey } })

/-- The statement `if (!checkKey(allowKey)) nextValue(inObject(), isblock);` with which
`openBlock`, `__val`, `nul`, `val` and `data` start. -/
def recordValue (allowKey isblock : Bool) (w : BaseJSONWriter) : Except Violation BaseJSONWriter :=
  match checkKey allowKey w with
  | .error e => .error e
  | .ok (true, w1) => .ok w1
  | .ok (false, w1) => nextValue (inObject w1) isblock w1

/-- The member `openBlock` (lines 129-144). -/
def openBlock (type : BlockType) (capacity : Int) (lineSize : Nat) (w : BaseJSONWriter) :
    Except Violation BaseJSONWriter :=
  if ¬ (type = .OBJECT ∨ type = .ARRAY) then
    .error .unknownBlockType
  else
    match recordValue true true w with
    | .error e => .error e
    | .ok w1 =>
      let block := Block.new type capacity lineSize
      let w2 := { w1 with blocks := w1.block :: w1.blocks, block := block }
      let varsize : Bool := decide (block.capacity < 0)
      let inl : Bool := decide (block.capacity ≥ 0 ∧ block.capacity ≤ (block.maxLineSize : Int))
      if type = .OBJECT then
        .ok (emit (.writeOpenObject varsize block.capacity inl) w2)
      else
        .ok (emit (.writeOpenArray varsize block.capacity inl) w2)

/-- The member `closeBlock` (lines 146-160). -/
def closeBlock (w : BaseJSONWriter) : Except Violation BaseJSONWriter :=
  if ¬ (w.block.type ≠ .ROOT ∧ w.blocks ≠ []) then
    .error .unmatchedBlocks
  else if ¬ (w.block.capacity < 0 ∨ w.block.size = w.block.capacity) then
    .error .capacityNotReached
  else if ¬ (w.block.wroteKey = false) then
    .error .keyWithoutValue
  else if ¬ (w.block.type = .OBJECT ∨ w.block.type = .ARRAY) then
    .error .unknownBlockType
  else
    let varsize : Bool := decide (w.block.capacity < 0)
    let inl : Bool := decide (w.block.capacity ≥ 0 ∧ w.block.capacity ≤ (w.block.maxLineSize : Int))
    let w1 :=
      if w.block.type = .OBJECT then
        emit (.writeCloseObject varsize w.block.size inl) w
      else
        emit (.writeCloseArray varsize w.block.size inl) w
    match w1.blocks with
    | [] => .error .unmatchedBlocks
    | top :: rest => .ok { w1 with block := top, blocks := rest }

/-- The member `arr(capacity, maxLineSize)` (lines 276-278). -/
def arr (capacity : Int) (maxLineSize : Nat) (w : BaseJSONWriter) : Except Violation BaseJSONWriter :=
  openBlock .ARRAY capacity maxLineSize w

/-- The member `obj(capacity, maxLineSize)` (lines 280-282). -/
def obj (capacity : Int) (maxLineSize : Nat) (w : BaseJSONWriter) : Except Violation BaseJSONWriter :=
  openBlock .OBJECT capacity maxLineSize w

/-- The member `end()` (lines 284-286). -/
def end_ (w : BaseJSONWriter) : Except Violation BaseJSONWriter :=
  closeBlock w

/-- The member `is()` (lines 296-299). -/
def is (w : BaseJSONWriter) : Except Violation BaseJSONWriter :=
  if ¬ (inObject w = true ∧ w.block.wroteKey = true) then .error .noKeyToAssign else .ok w

/-- The member `nul()` (lines 301-305). -/
def nul (w : BaseJSONWriter) : Except Violation BaseJSONWriter :=
  match recordValue false false w with
  | .error e => .error e
  | .ok w1 => .ok (emit .writeNull w1)

/-- The member `val(v)` for a scalar `v` (lines 307-310, through `_val`, `__val` or `__ptr`,
lines 248-258, and the `value` specialisation of its kind, lines 229-242). -/
def val (v : Scalar) (w : BaseJSONWriter) : Except Violation BaseJSONWriter :=
  match recordValue true false w with
  | .error e => .error e
  | .ok w1 => .ok (emit (.writeValue v w1.block.wroteKey) w1)

/-- The loop `for (...) val(values[i]);` of `arr(values, size, lineSize)` (lines 332-333) and
of `arr(vector, lineSize)` (lines 340-341). -/
def valLoop : List Scalar → BaseJSONWriter → Except Violation BaseJSONWriter
  | [], w => .ok w
  | v :: rest, w =>
    match val v w with
    | .error e => .error e
    | .ok w1 => valLoop rest w1

/-- The members `arr(values, size, lineSize)` (lines 330-336) and `arr(vector, lineSize)`
(lines 338-344): open an array of that capacity, write the values, end the array. -/
def arrValues (values : List Scalar) (lineSize : Nat) (w : BaseJSONWriter) :
    Except Violation BaseJSONWriter :=
  match arr (values.length : Int) lineSize w with
  | .error e => .error e
  | .ok w1 =>
    match valLoop values w1 with
    | .error e => .error e
    | .ok w2 => end_ w2

/-- The member `values(values, count, lineSize)` for a buffer (lines 197-207); `sizeofT` is
`sizeof(T)`.  The buffer goes to `writeDataItem` in one piece. -/
def valuesBuffer (sink : Sink) (sizeofT : Nat) (values : List Scalar) (lineSize : Nat)
    (w : BaseJSONWriter) : Except Violation BaseJSONWriter :=
  let count := values.length
  let bytes := count * sizeofT
  let w1 := emit (.writeOpenData count bytes) w
  if sink.writeOpenData count bytes = true then
    .ok (emit (.writeCloseData count bytes) (emit (.writeDataItem values bytes) w1))
  else
    match checkKey true w1 with
    | .error e => .error e
    | .ok (_, w2) => arrValues values lineSize w2

/-- The loop of `values(vector, lineSize)` (lines 213-214): one `writeDataItem` per element. -/
def dataItemLoop (sizeofT : Nat) : List Scalar → BaseJSONWriter → BaseJSONWriter
  | [], w => w
  | v :: rest, w => dataItemLoop sizeofT rest (emit (.writeDataItem [v] sizeofT) w)

/-- The member `values(vector, lineSize)` (lines 209-220). -/
def valuesVector (sink : Sink) (sizeofT : Nat) (values : List Scalar) (lineSize : Nat)
    (w : BaseJSONWriter) : Except Violation BaseJSONWriter :=
  let count := values.length
  let bytes := count * sizeofT
  let w1 := emit (.writeOpenData count bytes) w
  if sink.writeOpenData count bytes = true then
    .ok (emit (.writeCloseData count bytes) (dataItemLoop sizeofT values w1))
  else
    match checkKey true w1 with
    | .error e => .error e
    | .ok (_, w2) => arrValues values lineSize w2

/-- The argument `lineSize == useDefaultSize ? defaultDataLineSize : lineSize` of the three
`data` members. -/
def dataLineSize (w : BaseJSONWriter) (lineSize : Nat) : Nat :=
  if lineSize = useDefaultSize then w.defaultDataLineSize else lineSize

/-- The members `data(v, size, lineSize)` (lines 346-350) and `data(v[n], lineSize)`
(lines 352-356). -/
def data (sink : Sink) (sizeofT : Nat) (v : List Scalar) (lineSize : Nat) (w : BaseJSONWriter) :
    Except Violation BaseJSONWriter :=
  match recordValue false false w with
  | .error e => .error e
  | .ok w1 => valuesBuffer sink sizeofT v (dataLineSize w1 lineSize) w1

/-- The member `data(vector, lineSize)` (lines 358-362). -/
def dataVector (sink : Sink) (sizeofT : Nat) (v : List Scalar) (lineSize : Nat)
    (w : BaseJSONWriter) : Except Violation BaseJSONWriter :=
  match recordValue false false w with
  | .error e => .error e
  | .ok w1 => valuesVector sink sizeofT v (dataLineSize w1 lineSize) w1

/-- The member `pair(key, value)` (lines 364-366): `val(key).is().val(value)`. -/
def pair (key value : Scalar) (w : BaseJSONWriter) : Except Violation BaseJSONWriter :=
  match val key w with
  | .error e => .error e
  | .ok w1 =>
    match is w1 with
    | .error e => .error e
    | .ok w2 => val value w2

/-- The member `val(v)` for a `char` buffer `v[n]` (lines 318-322): `valueArray<char>`
(line 224) hands the buffer to `value<char>(const char *)` (line 229), that is to
`writeValue(const char *, iskey)`. -/
def valCharArray (v : String) (w : BaseJSONWriter) : Except Violation BaseJSONWriter :=
  match recordValue true false w with
  | .error e => .error e
  | .ok w1 => .ok (emit (.writeValue (.str v) w1.block.wroteKey) w1)

/-- The member `val(v)` for a buffer `v[n]` of another scalar kind (lines 318-322):
`valueArray` (lines 222-223) is `checkKey(); data(values, size);`, with the default line size
of `data`. -/
def valArray (sink : Sink) (sizeofT : Nat) (v : List Scalar) (w : BaseJSONWriter) :
    Except Violation BaseJSONWriter :=
  match recordValue true false w with
  | .error e => .error e
  | .ok w1 =>
    match checkKey true w1 with
    | .error e => .error e
    | .ok (_, w2) => data sink sizeofT v useDefaultSize w2

/-- The destructor (lines 271-273). -/
def dispose (w : BaseJSONWriter) : Except Violation Unit :=
  if ¬ (inArray w = false ∧ inObject w = false) then .error .unclosed else .ok ()

/-- The public operations of the writer, with their arguments. -/
inductive Op where
  | obj (capacity : Int) (maxLineSize : Nat)
  | arr (capacity : Int) (maxLineSize : Nat)
  | end_
  | is
  | nul
  | val (v : Scalar)
  | arrValues (values : List Scalar) (lineSize : Nat)
  | data (sizeofT : Nat) (v : List Scalar) (lineSize : Nat)
  | dataVector (sizeofT : Nat) (v : List Scalar) (lineSize : Nat)
  | pair (key value : Scalar)
  | valCharArray (v : String)
  | valArray (sizeofT : Nat) (v : List Scalar)
  deriving DecidableEq, Repr

/-- One public call on the writer. -/
def step (sink : Sink) : Op → BaseJSONWriter → Except Violation BaseJSONWriter
  | .obj capacity maxLineSize, w => obj capacity maxLineSize w
  | .arr capacity maxLineSize, w => arr capacity maxLineSize w
  | .end_, w => end_ w
  | .is, w => is w
  | .nul, w => nul w
  | .val v, w => val v w
  | .arrValues values lineSize, w => arrValues values lineSize w
  | .data sizeofT v lineSize, w => data sink sizeofT v lineSize w
  | .dataVector sizeofT v lineSize, w => dataVector sink sizeofT v lineSize w
  | .pair key value, w => pair key value w
  | .valCharArray v, w => valCharArray v w
  | .valArray sizeofT v, w => valArray sink sizeofT v w

/-- A sequence of public calls, in order; the first violation aborts. -/
def run (sink : Sink) : List Op → BaseJSONWriter → Except Violation BaseJSONWriter
  | [], w => .ok w
  | op :: ops, w =>
    match step sink op w with
    | .error e => .error e
    | .ok w1 => run sink ops w1

/-- The states a writer can be in: the fresh writer, and every state a public call that
returns leaves behind; the sink may answer each call as it likes. -/
inductive Reachable : BaseJSONWriter → Prop where
  | new : Reachable BaseJSONWriter.new
  | step (sink : Sink) (op : Op) (w w1 : BaseJSONWriter) :
      Reachable w → step sink op w = .ok w1 → Reachable w1

/-- The frames below the current one are containers down to the last, which is the root. -/
def stackShape : Block → List Block → Bool
  | b, [] => b.type == .ROOT
  | b, p :: rest => b.type != .ROOT && stackShape p rest

/-- What holds of every frame of a reachable writer. -/
def Block.WF (b : Block) : Prop :=
  (b.type = .ROOT → b.capacity < 0 ∧ b.size ≤ 1) ∧ 0 ≤ b.size ∧
    (0 ≤ b.capacity → b.size ≤ b.capacity) ∧ (b.wroteKey = true → b.type = .OBJECT)

instance : DecidablePred Block.WF := fun b => by
  unfold Block.WF
  infer_instance

/-- The invariant of the writer. -/
def Inv (w : BaseJSONWriter) : Prop :=
  stackShape w.block w.blocks = true ∧ ∀ b ∈ w.block :: w.blocks, b.WF

instance : DecidablePred Inv := fun w => by
  unfold Inv
  infer_instance

/-- The newline flags `nextValue` reports (lines 124-126) for `count` successive values of a
frame of width `maxLineSize` whose counter stands at `lineSize`. -/
def wrapFlags (maxLineSize : Nat) : Nat → Nat → List Bool
  | _, 0 => []
  | lineSize, count + 1 =>
    let next := (lineSize + 1) % 4294967296
    decide (next > maxLineSize) ::
      wrapFlags maxLineSize (if next > maxLineSize then 1 else next) count

/-- The counter `lineSize` of a frame after `count` more values (lines 124-126). -/
def lineSizeAfter (maxLineSize : Nat) : Nat → Nat → Nat
  | lineSize, 0 => lineSize
  | lineSize, count + 1 =>
    let next := (lineSize + 1) % 4294967296
    lineSizeAfter maxLineSize (if next > maxLineSize then 1 else next) count

/-- The sink calls of successive array items: a `writeNextValue` with the given newline flag,
`first` on the first item only, then the `writeValue` of the item, not as a key. -/
def itemCalls : Bool → List Scalar → List Bool → List Event
  | first, v :: values, newline :: flags =>
    .writeNextValue first newline :: .writeValue v false :: itemCalls false values flags
  | _, _, _ => []

/-- The `writeValue` calls among the calls made to the sink: the value and its `iskey`. -/
def scalarWrites : List Event → List (Scalar × Bool)
  | [] => []
  | .writeValue v iskey :: rest => (v, iskey) :: scalarWrites rest
  | _ :: rest => scalarWrites rest

/-- The values paired with a flag that alternates, starting with `flag`. -/
def alternate : Bool → List Scalar → List (Scalar × Bool)
  | _, [] => []
  | flag, v :: rest => (v, flag) :: alternate (!flag) rest

/-- The calls of an array written element by element: `writeOpenArray` with the fixed size
`values.length`, the items, `writeCloseArray`; inline iff the size is at most `lineSize`. -/
def fallbackCalls (values : List Scalar) (lineSize : Nat) : List Event :=
  [.writeOpenArray false values.length (decide (values.length ≤ lineSize))] ++
    itemCalls true values (wrapFlags lineSize 0 values.length) ++
    [.writeCloseArray false values.length (decide (values.length ≤ lineSize))]

/-- The frame after the accounting of `nextValue` (lines 124-126). -/
def Block.next (b : Block) : Block :=
  { b with
    size := b.size + 1
    lineSize := if (b.lineSize + 1) % 4294967296 > b.maxLineSize then 1
      else (b.lineSize + 1) % 4294967296 }

/-- The `writeNextValue` call `nextValue` makes for a frame (line 124). -/
def Block.separator (b : Block) : Event :=
  .writeNextValue (decide (b.size = 0)) (decide ((b.lineSize + 1) % 4294967296 > b.maxLineSize))

/-- The `writeDataItem` calls of `values(vector, lineSize)`: one per element. -/
def vectorItemCalls (sizeofT : Nat) (values : List Scalar) : List Event :=
  values.map (fun v => .writeDataItem [v] sizeofT)

/-- The sum of the byte counts of the `writeDataItem` calls among the calls. -/
def dataItemBytes : List Event → Nat
  | [] => 0
  | .writeDataItem _ bytes :: rest => bytes + dataItemBytes rest
  | _ :: rest => dataItemBytes rest

/-- The calls `obj(...)` and `arr(...)`, which open a container. -/
def Op.opens : Op → Bool
  | .obj _ _ => true
  | .arr _ _ => true
  | _ => false

/-- The call `end()`, which closes a container. -/
def Op.closes : Op → Bool
  | .end_ => true
  | _ => false

/-- The number of `obj(...)` and `arr(...)` calls of a sequence. -/
def opened : List Op → Nat
  | [] => 0
  | op :: ops => (if op.opens = true then 1 else 0) + opened ops

/-- The number of `end()` calls of a sequence. -/
def closed : List Op → Nat
  | [] => 0
  | op :: ops => (if op.closes = true then 1 else 0) + closed ops

/-- The frames of the writer from the bottom of the stack up: the saved frames, oldest first,
followed by the current frame. -/
def frames (w : BaseJSONWriter) : List Block := w.blocks.reverse ++ [w.block]

/-- The nesting depth after a sequence of calls that starts at depth `depth`: `obj` and `arr`
add one, `end()` takes one off; `none` when an `end()` would close a container that the
sequence did not open. -/
def nesting : Nat → List Op → Option Nat
  | depth, [] => some depth
  | depth, op :: ops =>
    if op.opens = true then nesting (depth + 1) ops
    else if op.closes = true then
      match depth with
      | 0 => none
      | d + 1 => nesting d ops
    else nesting depth ops

/-! ## The primitives, case by case -/

section primitives

variable (w : BaseJSONWriter)

theorem recordValue_not_object (allowKey isblock : Bool) (h : w.block.type ≠ .OBJECT) :
    recordValue allowKey isblock w = nextValue false isblock w := by
  have hb : (w.block.type == BlockType.OBJECT) = false := by simpa using h
  simp [recordValue, checkKey, inObject, hb]

theorem recordValue_key (isblock : Bool) (h : w.block.type = .OBJECT)
    (hk : w.block.wroteKey = false) :
    recordValue true isblock w
      = nextValue true isblock { w with block := { w.block with wroteKey := true } } := by
  simp [recordValue, checkKey, inObject, h, hk]

theorem recordValue_key_refused (isblock : Bool) (h : w.block.type = .OBJECT)
    (hk : w.block.wroteKey = false) :
    recordValue false isblock w = .error .keyNotAllowed := by
  simp [recordValue, checkKey, inObject, h, hk]

theorem recordValue_value (allowKey isblock : Bool) (h : w.block.type = .OBJECT)
    (hk : w.block.wroteKey = true) :
    recordValue allowKey isblock w
      = .ok { w with block := { w.block with wroteKey := false } } := by
  simp [recordValue, checkKey, inObject, h, hk]

end primitives

/-! ## Scalar writes in an array -/

theorem val_array (v : Scalar) (w : BaseJSONWriter) (h : w.block.type = .ARRAY)
    (hc : w.block.capacity < 0 ∨ w.block.size < w.block.capacity) :
    val v w = .ok
      { w with
        block := { w.block with
          size := w.block.size + 1
          lineSize := if (w.block.lineSize + 1) % 4294967296 > w.block.maxLineSize then 1
            else (w.block.lineSize + 1) % 4294967296 }
        calls := w.calls ++ [.writeNextValue (decide (w.block.size = 0))
            (decide ((w.block.lineSize + 1) % 4294967296 > w.block.maxLineSize)),
          .writeValue v w.block.wroteKey] } := by
  have hne : w.block.type ≠ .OBJECT := by simp [h]
  simp [val, recordValue_not_object w true false hne, nextValue, h, hc, emit]

theorem val_array_full (v : Scalar) (w : BaseJSONWriter) (h : w.block.type = .ARRAY)
    (hc : ¬ (w.block.capacity < 0 ∨ w.block.size < w.block.capacity)) :
    val v w = .error .capacityExceeded := by
  have hne : w.block.type ≠ .OBJECT := by simp [h]
  simp [val, recordValue_not_object w true false hne, nextValue, h, hc]

theorem valLoop_array (xs : List Scalar) :
    ∀ w : BaseJSONWriter, w.block.type = .ARRAY → w.block.wroteKey = false → 0 ≤ w.block.size →
      (w.block.capacity < 0 ∨ w.block.size + xs.length ≤ w.block.capacity) →
      valLoop xs w = .ok
        { w with
          block := { w.block with
            size := w.block.size + xs.length
            lineSize := lineSizeAfter w.block.maxLineSize w.block.lineSize xs.length }
          calls := w.calls ++ itemCalls (decide (w.block.size = 0)) xs
            (wrapFlags w.block.maxLineSize w.block.lineSize xs.length) } := by
  induction xs with
  | nil =>
    intro w _ _ _ _
    simp [valLoop, lineSizeAfter, itemCalls]
  | cons x xs ih =>
    intro w ht hk hs hc
    have hc1 : w.block.capacity < 0 ∨ w.block.size < w.block.capacity := by
      rcases hc with hc | hc
      · exact Or.inl hc
      · right
        simp only [List.length_cons, Nat.cast_add, Nat.cast_one] at hc
        omega
    rw [valLoop, val_array x w ht hc1]
    simp only
    rw [ih _ (by exact ht) (by exact hk) (by show (0 : Int) ≤ w.block.size + 1; omega)
      (by
        rcases hc with hc | hc
        · exact Or.inl hc
        · right
          simp only [List.length_cons, Nat.cast_add, Nat.cast_one] at hc
          show w.block.size + 1 + (xs.length : Int) ≤ w.block.capacity
          omega)]
    have hz : ¬ (w.block.size + 1 = 0) := by omega
    simp [lineSizeAfter, wrapFlags, itemCalls, hk, hz, add_assoc]
    omega

theorem valLoop_array_exceeded (xs : List Scalar) :
    ∀ w : BaseJSONWriter, w.block.type = .ARRAY →
      0 ≤ w.block.capacity → w.block.size ≤ w.block.capacity →
      w.block.capacity < w.block.size + xs.length →
      valLoop xs w = .error .capacityExceeded := by
  induction xs with
  | nil =>
    intro w _ _ h1 h2
    simp at h2
    omega
  | cons x xs ih =>
    intro w ht h0 h1 h2
    by_cases hc : w.block.size < w.block.capacity
    · rw [valLoop, val_array x w ht (Or.inr hc)]
      simp only
      apply ih
      · exact ht
      · exact h0
      · simp only; omega
      · simp only [List.length_cons, Nat.cast_add, Nat.cast_one] at h2
        simp only
        omega
    · rw [valLoop, val_array_full x w ht (by omega)]

/-! ## Sequences of calls -/

theorem run_append (sink : Sink) (ops1 ops2 : List Op) :
    ∀ w : BaseJSONWriter, run sink (ops1 ++ ops2) w =
      match run sink ops1 w with
      | .error e => .error e
      | .ok w1 => run sink ops2 w1 := by
  induction ops1 with
  | nil => intro w; simp [run]
  | cons op ops ih =>
    intro w
    simp only [List.cons_append, run]
    cases step sink op w with
    | error e => simp
    | ok w1 => simpa using ih w1

theorem run_vals (sink : Sink) (xs : List Scalar) :
    ∀ w : BaseJSONWriter, run sink (xs.map Op.val) w = valLoop xs w := by
  induction xs with
  | nil => intro w; simp [run, valLoop]
  | cons x xs ih =>
    intro w
    simp only [List.map_cons, run, step, valLoop]
    cases val x w with
    | error e => simp
    | ok w1 => simpa using ih w1

theorem arr_new (capacity : Int) (lineSize : Nat) :
    arr capacity lineSize BaseJSONWriter.new = .ok
      { blocks := [{ type := .ROOT, capacity := -1, size := 1, maxLineSize := 0, lineSize := 1,
                     wroteKey := false }]
        block := Block.new .ARRAY capacity lineSize
        defaultDataLineSize := 32
        calls := [.writeNextValue true true,
          .writeOpenArray (decide (capacity < 0)) capacity
            (decide (0 ≤ capacity ∧ capacity ≤ (lineSize : Int)))] } := by
  simp [arr, openBlock, recordValue, checkKey, inObject, nextValue, BaseJSONWriter.new, Block.new,
    emit]

/-! ## Capacity of an array -/

/-- C1. Capacity is an exact bound.  On a fresh writer, after `arr(n)`: the successive writes
`val(x_1) ... val(x_i)` all succeed iff `i ≤ n`; after `n` writes a further `val(x)` fails with
"Block capacity exceeded" while `end()` succeeds; after fewer than `n` writes `end()` fails with
"Reserved capacity not reached yet". -/
theorem capacity_is_exact_bound (sink : Sink) (n lineSize : Nat) (xs : List Scalar) (x : Scalar) :
    ((∃ w1, run sink (.arr n lineSize :: xs.map .val) BaseJSONWriter.new = .ok w1)
        ↔ xs.length ≤ n) ∧
    (xs.length = n →
      run sink (.arr n lineSize :: (xs.map .val ++ [.val x])) BaseJSONWriter.new
        = .error .capacityExceeded) ∧
    (xs.length = n →
      ∃ w2, run sink (.arr n lineSize :: (xs.map .val ++ [.end_])) BaseJSONWriter.new = .ok w2) ∧
    (xs.length < n →
      run sink (.arr n lineSize :: (xs.map .val ++ [.end_])) BaseJSONWriter.new
        = .error .capacityNotReached) := by
  have hrun : ∀ ops, run sink (.arr n lineSize :: ops) BaseJSONWriter.new
      = run sink ops
        { blocks := [{ type := .ROOT, capacity := -1, size := 1, maxLineSize := 0, lineSize := 1,
                       wroteKey := false }]
          block := Block.new .ARRAY n lineSize
          defaultDataLineSize := 32
          calls := [.writeNextValue true true,
            .writeOpenArray (decide ((n : Int) < 0)) n
              (decide (0 ≤ (n : Int) ∧ (n : Int) ≤ (lineSize : Int)))] } := by
    intro ops
    simp only [run, step, arr_new]
  have hfit : xs.length ≤ n → ∀ w0 : BaseJSONWriter, w0.block = Block.new .ARRAY n lineSize →
      valLoop xs w0 = .ok
        { w0 with
          block := { w0.block with
            size := w0.block.size + xs.length
            lineSize := lineSizeAfter w0.block.maxLineSize w0.block.lineSize xs.length }
          calls := w0.calls ++ itemCalls (decide (w0.block.size = 0)) xs
            (wrapFlags w0.block.maxLineSize w0.block.lineSize xs.length) } := by
    intro hle w0 hb
    apply valLoop_array xs w0
    · simp [hb, Block.new]
    · simp [hb, Block.new]
    · simp [hb, Block.new]
    · right
      simp only [hb, Block.new]
      omega
  refine ⟨?_, ?_, ?_, ?_⟩
  · rw [hrun, run_vals]
    constructor
    · rintro ⟨w1, h1⟩
      by_contra hgt
      rw [valLoop_array_exceeded xs _ (by simp [Block.new]) (by simp [Block.new])
        (by simp [Block.new]) (by simp only [Block.new]; omega)] at h1
      cases h1
    · intro hle
      exact ⟨_, hfit hle _ rfl⟩
  · intro hlen
    rw [hrun, run_append, run_vals, hfit (le_of_eq hlen) _ rfl]
    simp only [run, step]
    rw [val_array_full]
    · simp [Block.new]
    · simp only [Block.new]
      omega
  · intro hlen
    rw [hrun, run_append, run_vals, hfit (le_of_eq hlen) _ rfl]
    simp [run, step, end_, closeBlock, Block.new, hlen, emit]
  · intro hlen
    rw [hrun, run_append, run_vals, hfit (le_of_lt hlen) _ rfl]
    have hne : ¬ ((xs.length : Int) = n) := by omega
    simp [run, step, end_, closeBlock, Block.new, hne]

/-- C1, witness: `arr(3)`, three writes and `end()` succeed; a fourth write fails with
"Block capacity exceeded"; `end()` after two writes fails with "Reserved capacity not reached
yet". -/
theorem capacity_is_exact_bound_witness :
    (∃ w2, run Sink.base [.arr 3 0, .val (.int 7), .val (.int 8), .val (.int 9), .end_]
        BaseJSONWriter.new = .ok w2) ∧
    run Sink.base [.arr 3 0, .val (.int 7), .val (.int 8), .val (.int 9), .val (.int 10)]
        BaseJSONWriter.new = .error .capacityExceeded ∧
    run Sink.base [.arr 3 0, .val (.int 7), .val (.int 8), .end_]
        BaseJSONWriter.new = .error .capacityNotReached :=
  ⟨(capacity_is_exact_bound Sink.base 3 0 [.int 7, .int 8, .int 9] (.int 10)).2.2.1 rfl,
   (capacity_is_exact_bound Sink.base 3 0 [.int 7, .int 8, .int 9] (.int 10)).2.1 rfl,
   (capacity_is_exact_bound Sink.base 3 0 [.int 7, .int 8] (.int 10)).2.2.2 (by decide)⟩

/-! ## Scalar writes in an object -/

theorem val_object_key (v : Scalar) (w : BaseJSONWriter) (ht : w.block.type = .OBJECT)
    (hk : w.block.wroteKey = false)
    (hc : w.block.capacity < 0 ∨ w.block.size < w.block.capacity) :
    val v w = .ok
      { w with
        block := { w.block with
          size := w.block.size + 1
          lineSize := if (w.block.lineSize + 1) % 4294967296 > w.block.maxLineSize then 1
            else (w.block.lineSize + 1) % 4294967296
          wroteKey := true }
        calls := w.calls ++ [.writeNextValue (decide (w.block.size = 0))
            (decide ((w.block.lineSize + 1) % 4294967296 > w.block.maxLineSize)),
          .writeValue v true] } := by
  simp [val, recordValue_key w false ht hk, nextValue, inObject, ht, hc, emit]

theorem val_object_value (v : Scalar) (w : BaseJSONWriter) (ht : w.block.type = .OBJECT)
    (hk : w.block.wroteKey = true) :
    val v w = .ok
      { w with
        block := { w.block with wroteKey := false }
        calls := w.calls ++ [.writeValue v false] } := by
  simp [val, recordValue_value w true false ht hk, emit]

theorem scalarWrites_append (xs ys : List Event) :
    scalarWrites (xs ++ ys) = scalarWrites xs ++ scalarWrites ys := by
  induction xs with
  | nil => simp [scalarWrites]
  | cons e xs ih => cases e <;> simp [scalarWrites, ih]

theorem alternate_cons_cons (k v : Scalar) (rest : List Scalar) :
    alternate true (k :: v :: rest) = (k, true) :: (v, false) :: alternate true rest := by
  simp [alternate]

theorem valLoop_object (n : Nat) :
    ∀ (xs : List Scalar) (w : BaseJSONWriter), xs.length = 2 * n → w.block.type = .OBJECT →
      w.block.wroteKey = false →
      (w.block.capacity < 0 ∨ w.block.size + n ≤ w.block.capacity) →
      ∃ w1, valLoop xs w = .ok w1 ∧ w1.blocks = w.blocks ∧
        w1.defaultDataLineSize = w.defaultDataLineSize ∧
        w1.block = { w.block with
          size := w.block.size + n
          lineSize := lineSizeAfter w.block.maxLineSize w.block.lineSize n } ∧
        scalarWrites w1.calls = scalarWrites w.calls ++ alternate true xs := by
  induction n with
  | zero =>
    intro xs w h _ _ _
    have hx : xs = [] := List.length_eq_zero.mp (by simpa using h)
    subst hx
    exact ⟨w, by simp [valLoop, lineSizeAfter, alternate]⟩
  | succ n ih =>
    intro xs w h ht hk hc
    match xs, h with
    | [], h => simp at h
    | [_], h => simp at h; omega
    | k :: v :: rest, h =>
      have hc1 : w.block.capacity < 0 ∨ w.block.size < w.block.capacity := by
        rcases hc with hc | hc
        · exact Or.inl hc
        · right
          push_cast at hc
          omega
      rw [valLoop, val_object_key k w ht hk hc1]
      simp only
      rw [valLoop, val_object_value v _ (by exact ht) (by rfl)]
      simp only
      generalize hW : BaseJSONWriter.mk _ _ _ _ = W
      have hWb : W.block = { w.block with
          size := w.block.size + 1
          lineSize := if (w.block.lineSize + 1) % 4294967296 > w.block.maxLineSize then 1
            else (w.block.lineSize + 1) % 4294967296
          wroteKey := false } := by rw [← hW]
      obtain ⟨w1, h1, h2, h3, h4, h5⟩ := ih rest W (by simp at h; omega)
        (by rw [hWb]; exact ht) (by rw [hWb])
        (by
          rcases hc with hc | hc
          · left; rw [hWb]; exact hc
          · right
            push_cast at hc
            rw [hWb]
            show w.block.size + 1 + (n : Int) ≤ w.block.capacity
            omega)
      refine ⟨w1, h1, ?_, ?_, ?_, ?_⟩
      · rw [h2, ← hW]
      · rw [h3, ← hW]
      · rw [h4, hWb]
        simp [lineSizeAfter, add_assoc, hk]
        omega
      · rw [h5, alternate_cons_cons, ← hW]
        simp [scalarWrites_append, scalarWrites]

/-- C2. Key/value alternation in an Object.  In an Object frame of unbounded capacity that awaits
a key, `2 * n` successive scalar writes all succeed; the `writeValue` calls they make are the
values in order, the odd ones (first, third, ...) with `iskey = true` and the even ones with
`iskey = false`; afterwards the frame has grown by `n` (from size `0` to size `n`), no key is
outstanding, and `end()` succeeds and reports that size to `writeCloseObject`. -/
theorem object_key_value_alternation (sink : Sink) (n : Nat) (xs : List Scalar)
    (w : BaseJSONWriter) (parent : Block) (rest : List Block)
    (hlen : xs.length = 2 * n) (ht : w.block.type = .OBJECT) (hc : w.block.capacity < 0)
    (hk : w.block.wroteKey = false) (hb : w.blocks = parent :: rest) :
    ∃ w1, run sink (xs.map .val) w = .ok w1 ∧
      scalarWrites w1.calls = scalarWrites w.calls ++ alternate true xs ∧
      w1.block.type = .OBJECT ∧ w1.block.size = w.block.size + n ∧
      w1.block.wroteKey = false ∧ w1.blocks = w.blocks ∧
      end_ w1 = .ok
        { w1 with
          block := parent
          blocks := rest
          calls := w1.calls ++ [.writeCloseObject true (w.block.size + n) false] } := by
  obtain ⟨w1, h1, h2, _, h4, h5⟩ := valLoop_object n xs w hlen ht hk (Or.inl hc)
  refine ⟨w1, by rw [run_vals, h1], h5, by rw [h4]; exact ht, by rw [h4], by rw [h4]; exact hk,
    h2, ?_⟩
  have hnc : ¬ (0 ≤ w.block.capacity) := by omega
  simp [end_, closeBlock, h4, h2, hb, ht, hc, hk, hnc, emit]

/-- C2, witness: in the object opened by `obj()` on a fresh writer, key, value, key, value
succeed, are written as key, value, key, value, and leave two pairs. -/
theorem object_key_value_alternation_witness :
    ∃ w1, run Sink.base [.val (.int 1), .val (.int 2), .val (.int 3), .val (.int 4)]
        { blocks := [{ type := .ROOT, capacity := -1, size := 1, maxLineSize := 0, lineSize := 1,
                       wroteKey := false }]
          block := Block.new .OBJECT (-1) 0
          defaultDataLineSize := 32
          calls := [.writeNextValue true true, .writeOpenObject true (-1) false] } = .ok w1 ∧
      scalarWrites w1.calls
        = [(.int 1, true), (.int 2, false), (.int 3, true), (.int 4, false)] ∧
      w1.block.type = .OBJECT ∧ w1.block.size = 2 ∧
      w1.block.wroteKey = false ∧
      w1.blocks = [{ type := .ROOT, capacity := -1, size := 1, maxLineSize := 0, lineSize := 1,
                     wroteKey := false }] ∧
      end_ w1 = .ok
        { w1 with
          block := { type := .ROOT, capacity := -1, size := 1, maxLineSize := 0, lineSize := 1,
                     wroteKey := false }
          blocks := []
          calls := w1.calls ++ [.writeCloseObject true 2 false] } :=
  object_key_value_alternation Sink.base 2 [.int 1, .int 2, .int 3, .int 4]
    { blocks := [{ type := .ROOT, capacity := -1, size := 1, maxLineSize := 0, lineSize := 1,
                   wroteKey := false }]
      block := Block.new .OBJECT (-1) 0
      defaultDataLineSize := 32
      calls := [.writeNextValue true true, .writeOpenObject true (-1) false] }
    { type := .ROOT, capacity := -1, size := 1, maxLineSize := 0, lineSize := 1,
      wroteKey := false } [] rfl rfl (by decide) rfl rfl

/-! ## Arrays written element by element -/

theorem arrValues_of_recordValue (values : List Scalar) (lineSize : Nat)
    (w w1 : BaseJSONWriter) (h : recordValue true true w = .ok w1) :
    arrValues values lineSize w = .ok { w1 with calls := w1.calls ++ fallbackCalls values lineSize } := by
  simp only [arrValues, arr, openBlock, h, Block.new, emit]
  simp only [reduceCtorEq, or_true, not_true_eq_false, if_false]
  rw [valLoop_array values _ (by rfl) (by rfl) (by show (0 : Int) ≤ 0; omega)
    (by right; show (0 : Int) + (values.length : Int) ≤ values.length; omega)]
  simp [end_, closeBlock, emit, fallbackCalls]

theorem arrValues_error (values : List Scalar) (lineSize : Nat)
    (w : BaseJSONWriter) (e : Violation) (h : recordValue true true w = .error e) :
    arrValues values lineSize w = .error e := by
  simp [arrValues, arr, openBlock, h]

theorem arrValues_eq_run (sink : Sink) (values : List Scalar) (lineSize : Nat)
    (w : BaseJSONWriter) :
    arrValues values lineSize w
      = run sink (.arr values.length lineSize :: (values.map .val ++ [.end_])) w := by
  simp only [arrValues, run, step]
  cases arr (values.length : Int) lineSize w with
  | error e => rfl
  | ok w1 =>
    simp only [run_append, run_vals]
    cases valLoop values w1 with
    | error e => rfl
    | ok w2 =>
      simp only [run, step]
      cases end_ w2 <;> rfl

/-! ## Bulk writes -/

theorem dataItemLoop_calls (sizeofT : Nat) (values : List Scalar) :
    ∀ w : BaseJSONWriter, dataItemLoop sizeofT values w
      = { w with calls := w.calls ++ vectorItemCalls sizeofT values } := by
  induction values with
  | nil => intro w; simp [dataItemLoop, vectorItemCalls]
  | cons v rest ih =>
    intro w
    rw [dataItemLoop, ih]
    simp [emit, vectorItemCalls]

theorem dataItemBytes_vectorItemCalls (sizeofT : Nat) (values : List Scalar) :
    dataItemBytes (vectorItemCalls sizeofT values) = values.length * sizeofT := by
  induction values with
  | nil => simp [vectorItemCalls, dataItemBytes]
  | cons v rest ih =>
    simp only [vectorItemCalls, List.map_cons, dataItemBytes, List.length_cons] at ih ⊢
    rw [ih]
    ring

theorem nextValue_array (isblock : Bool) (w : BaseJSONWriter) (ht : w.block.type = .ARRAY)
    (hc : w.block.capacity < 0 ∨ w.block.size < w.block.capacity) :
    nextValue false isblock w
      = .ok { w with block := w.block.next, calls := w.calls ++ [w.block.separator] } := by
  simp [nextValue, ht, hc, emit, Block.next, Block.separator]

theorem nextValue_array_full (isblock : Bool) (w : BaseJSONWriter) (ht : w.block.type = .ARRAY)
    (hc : ¬ (w.block.capacity < 0 ∨ w.block.size < w.block.capacity)) :
    nextValue false isblock w = .error .capacityExceeded := by
  simp [nextValue, ht, hc]

theorem checkKey_not_object (allowKey : Bool) (w : BaseJSONWriter)
    (h : w.block.type ≠ .OBJECT) : checkKey allowKey w = .ok (false, w) := by
  have hb : (w.block.type == BlockType.OBJECT) = false := by simpa using h
  simp [checkKey, inObject, hb]

theorem checkKey_object (w : BaseJSONWriter) (h : w.block.type = .OBJECT) :
    checkKey true w
      = .ok (w.block.wroteKey, { w with block := { w.block with wroteKey := !w.block.wroteKey } }) := by
  simp [checkKey, inObject, h]

theorem data_declined_array (sink : Sink) (sizeofT : Nat) (v : List Scalar) (lineSize : Nat)
    (w : BaseJSONWriter) (hsink : sink.writeOpenData v.length (v.length * sizeofT) = false)
    (ht : w.block.type = .ARRAY)
    (hc : w.block.capacity < 0 ∨ w.block.size + 1 < w.block.capacity) :
    data sink sizeofT v lineSize w = .ok
      { w with
        block := w.block.next.next
        calls := w.calls ++ [w.block.separator, .writeOpenData v.length (v.length * sizeofT),
          w.block.next.separator] ++ fallbackCalls v (dataLineSize w lineSize) } := by
  have hne : w.block.type ≠ .OBJECT := by simp [ht]
  have hc1 : w.block.capacity < 0 ∨ w.block.size < w.block.capacity := by omega
  have hc2 : w.block.next.capacity < 0 ∨ w.block.next.size < w.block.next.capacity := by
    simpa [Block.next] using hc
  have ht2 : w.block.next.type = .ARRAY := by simpa [Block.next] using ht
  rw [data, recordValue_not_object w false false hne, nextValue_array false w ht hc1]
  simp only [valuesBuffer, hsink, Bool.false_eq_true, if_false]
  rw [checkKey_not_object true _ (by simp [emit, ht2])]
  simp only
  rw [arrValues_of_recordValue v _ _ _
    (by
      rw [recordValue_not_object _ true true (by simp [emit, ht2])]
      exact nextValue_array true _ (by simpa [emit] using ht2) (by simpa [emit] using hc2))]
  simp [emit, dataLineSize]

theorem data_declined_object (sink : Sink) (sizeofT : Nat) (v : List Scalar) (lineSize : Nat)
    (w : BaseJSONWriter) (hsink : sink.writeOpenData v.length (v.length * sizeofT) = false)
    (ht : w.block.type = .OBJECT) (hk : w.block.wroteKey = true) :
    data sink sizeofT v lineSize w = .ok
      { w with
        block := { w.block with wroteKey := false }
        calls := w.calls ++ [.writeOpenData v.length (v.length * sizeofT)]
          ++ fallbackCalls v (dataLineSize w lineSize) } := by
  rw [data, recordValue_value w false false ht hk]
  simp only [valuesBuffer, hsink, Bool.false_eq_true, if_false]
  rw [checkKey_object _ (by simpa [emit] using ht)]
  simp only
  rw [arrValues_of_recordValue v _ _ _
    (recordValue_value _ true true (by simpa [emit] using ht) (by simp [emit]))]
  simp [emit, dataLineSize]

theorem valuesVector_declined (sink : Sink) (sizeofT : Nat) (v : List Scalar) (lineSize : Nat)
    (w : BaseJSONWriter) (hsink : sink.writeOpenData v.length (v.length * sizeofT) = false) :
    valuesVector sink sizeofT v lineSize w = valuesBuffer sink sizeofT v lineSize w := by
  simp [valuesVector, valuesBuffer, hsink]

theorem dataVector_declined (sink : Sink) (sizeofT : Nat) (v : List Scalar) (lineSize : Nat)
    (w : BaseJSONWriter) (hsink : sink.writeOpenData v.length (v.length * sizeofT) = false) :
    dataVector sink sizeofT v lineSize w = data sink sizeofT v lineSize w := by
  simp only [dataVector, data]
  cases recordValue false false w with
  | error e => rfl
  | ok w1 => exact valuesVector_declined sink sizeofT v _ w1 hsink

theorem data_accepted_array (sink : Sink) (sizeofT : Nat) (v : List Scalar) (lineSize : Nat)
    (w : BaseJSONWriter) (hsink : sink.writeOpenData v.length (v.length * sizeofT) = true)
    (ht : w.block.type = .ARRAY)
    (hc : w.block.capacity < 0 ∨ w.block.size < w.block.capacity) :
    data sink sizeofT v lineSize w = .ok
      { w with
        block := w.block.next
        calls := w.calls ++ [w.block.separator, .writeOpenData v.length (v.length * sizeofT),
          .writeDataItem v (v.length * sizeofT),
          .writeCloseData v.length (v.length * sizeofT)] } := by
  have hne : w.block.type ≠ .OBJECT := by simp [ht]
  rw [data, recordValue_not_object w false false hne, nextValue_array false w ht hc]
  simp [valuesBuffer, hsink, emit]

theorem data_accepted_object (sink : Sink) (sizeofT : Nat) (v : List Scalar) (lineSize : Nat)
    (w : BaseJSONWriter) (hsink : sink.writeOpenData v.length (v.length * sizeofT) = true)
    (ht : w.block.type = .OBJECT) (hk : w.block.wroteKey = true) :
    data sink sizeofT v lineSize w = .ok
      { w with
        block := { w.block with wroteKey := false }
        calls := w.calls ++ [.writeOpenData v.length (v.length * sizeofT),
          .writeDataItem v (v.length * sizeofT),
          .writeCloseData v.length (v.length * sizeofT)] } := by
  rw [data, recordValue_value w false false ht hk]
  simp [valuesBuffer, hsink, emit]

theorem dataVector_accepted_array (sink : Sink) (sizeofT : Nat) (v : List Scalar)
    (lineSize : Nat) (w : BaseJSONWriter)
    (hsink : sink.writeOpenData v.length (v.length * sizeofT) = true)
    (ht : w.block.type = .ARRAY)
    (hc : w.block.capacity < 0 ∨ w.block.size < w.block.capacity) :
    dataVector sink sizeofT v lineSize w = .ok
      { w with
        block := w.block.next
        calls := w.calls ++ [w.block.separator, .writeOpenData v.length (v.length * sizeofT)]
          ++ vectorItemCalls sizeofT v ++ [.writeCloseData v.length (v.length * sizeofT)] } := by
  have hne : w.block.type ≠ .OBJECT := by simp [ht]
  rw [dataVector, recordValue_not_object w false false hne, nextValue_array false w ht hc]
  simp [valuesVector, hsink, emit, dataItemLoop_calls]

theorem dataVector_accepted_object (sink : Sink) (sizeofT : Nat) (v : List Scalar)
    (lineSize : Nat) (w : BaseJSONWriter)
    (hsink : sink.writeOpenData v.length (v.length * sizeofT) = true)
    (ht : w.block.type = .OBJECT) (hk : w.block.wroteKey = true) :
    dataVector sink sizeofT v lineSize w = .ok
      { w with
        block := { w.block with wroteKey := false }
        calls := w.calls ++ [.writeOpenData v.length (v.length * sizeofT)]
          ++ vectorItemCalls sizeofT v ++ [.writeCloseData v.length (v.length * sizeofT)] } := by
  rw [dataVector, recordValue_value w false false ht hk]
  simp [valuesVector, hsink, emit, dataItemLoop_calls]

/-! ## Containers and value-only writes in the key position -/

theorem openBlock_in_key_position (type : BlockType) (capacity : Int) (lineSize : Nat)
    (w : BaseJSONWriter) (hty : type = .OBJECT ∨ type = .ARRAY)
    (ht : w.block.type = .OBJECT) (hk : w.block.wroteKey = false)
    (hc : w.block.capacity < 0 ∨ w.block.size < w.block.capacity) :
    ∃ w1, openBlock type capacity lineSize w = .ok w1 ∧
      w1.blocks = { w.block.next with wroteKey := true } :: w.blocks ∧
      w1.block = Block.new type capacity lineSize := by
  rcases hty with rfl | rfl <;>
    simp [openBlock, recordValue_key w true ht hk, nextValue, ht, hc, emit, Block.next]

/-- C3, the code at the failing input.  In the object opened by `obj()` on a fresh writer, which
awaits a key, `arr()` and `obj()` are accepted: a frame is pushed and the Object frame is saved
with `wroteKey = true`, the container standing as its key; carrying on with `end()`, a value and
`end()` completes the document.  The value-only writes `nul()` and `data(...)` at the same place
fail with "Key not allowed". -/
theorem container_accepted_as_key :
    run Sink.base [.obj (-1) 0, .arr (-1) 0] BaseJSONWriter.new = .ok
      { blocks := [{ type := .OBJECT, capacity := -1, size := 1, maxLineSize := 0, lineSize := 1,
                     wroteKey := true },
                   { type := .ROOT, capacity := -1, size := 1, maxLineSize := 0, lineSize := 1,
                     wroteKey := false }]
        block := Block.new .ARRAY (-1) 0
        defaultDataLineSize := 32
        calls := [.writeNextValue true true, .writeOpenObject true (-1) false,
          .writeNextValue true true, .writeOpenArray true (-1) false] } ∧
    run Sink.base [.obj (-1) 0, .obj (-1) 0] BaseJSONWriter.new = .ok
      { blocks := [{ type := .OBJECT, capacity := -1, size := 1, maxLineSize := 0, lineSize := 1,
                     wroteKey := true },
                   { type := .ROOT, capacity := -1, size := 1, maxLineSize := 0, lineSize := 1,
                     wroteKey := false }]
        block := Block.new .OBJECT (-1) 0
        defaultDataLineSize := 32
        calls := [.writeNextValue true true, .writeOpenObject true (-1) false,
          .writeNextValue true true, .writeOpenObject true (-1) false] } ∧
    run Sink.base [.obj (-1) 0, .arr (-1) 0, .end_, .val (.int 5), .end_] BaseJSONWriter.new = .ok
      { blocks := []
        block := { type := .ROOT, capacity := -1, size := 1, maxLineSize := 0, lineSize := 1,
                   wroteKey := false }
        defaultDataLineSize := 32
        calls := [.writeNextValue true true, .writeOpenObject true (-1) false,
          .writeNextValue true true, .writeOpenArray true (-1) false,
          .writeCloseArray true 0 false, .writeValue (.int 5) false,
          .writeCloseObject true 1 false] } ∧
    run Sink.base [.obj (-1) 0, .nul] BaseJSONWriter.new = .error .keyNotAllowed ∧
    run Sink.base [.obj (-1) 0, .data 4 [.int 1, .int 2] useDefaultSize] BaseJSONWriter.new
      = .error .keyNotAllowed :=
  ⟨rfl, rfl, rfl, rfl, rfl⟩

/-! ## Scalars under the root -/

theorem recordValue_root (allowKey : Bool) (w : BaseJSONWriter) (h : w.block.type = .ROOT) :
    recordValue allowKey false w = .error .mustStartWithBlock := by
  rw [recordValue_not_object w allowKey false (by simp [h])]
  simp [nextValue, h]

/-- C5. Root can never directly hold a scalar.  In every state whose current frame is Root,
`val(x)`, `nul()` and `data(values)` (from a buffer and from a vector), for every value, sink and
line size, fail with "Must start with an array or an object". -/
theorem root_holds_no_scalar (sink : Sink) (w : BaseJSONWriter) (x : Scalar) (sizeofT : Nat)
    (values : List Scalar) (lineSize : Nat) (h : w.block.type = .ROOT) :
    val x w = .error .mustStartWithBlock ∧
    nul w = .error .mustStartWithBlock ∧
    data sink sizeofT values lineSize w = .error .mustStartWithBlock ∧
    dataVector sink sizeofT values lineSize w = .error .mustStartWithBlock := by
  simp [val, nul, data, dataVector, recordValue_root _ w h]

/-- C5, witness: on the fresh writer, and on the writer whose single top-level container has
been closed, a scalar, a null and a bulk write fail. -/
theorem root_holds_no_scalar_witness :
    (val (.int 1) BaseJSONWriter.new = .error .mustStartWithBlock ∧
      nul BaseJSONWriter.new = .error .mustStartWithBlock ∧
      data Sink.base 4 [.int 1, .int 2] useDefaultSize BaseJSONWriter.new
        = .error .mustStartWithBlock ∧
      dataVector Sink.base 4 [.int 1, .int 2] useDefaultSize BaseJSONWriter.new
        = .error .mustStartWithBlock) ∧
    run Sink.base [.obj (-1) 0, .end_, .val (.int 1)] BaseJSONWriter.new
      = .error .mustStartWithBlock :=
  ⟨root_holds_no_scalar Sink.base BaseJSONWriter.new (.int 1) 4 [.int 1, .int 2] useDefaultSize
    rfl, rfl⟩

/-! ## Value-only writes in an object -/

/-- C7. Value-only writes are rejected in the key position.  In every state whose current frame
is an Object: when it awaits a key, `nul()` and `data(values)` (from a buffer and from a vector)
fail with "Key not allowed"; and each of them succeeds iff a key is outstanding. -/
theorem value_only_writes_refused_as_key (sink : Sink) (w : BaseJSONWriter) (sizeofT : Nat)
    (values : List Scalar) (lineSize : Nat) (ht : w.block.type = .OBJECT) :
    (w.block.wroteKey = false →
      nul w = .error .keyNotAllowed ∧
      data sink sizeofT values lineSize w = .error .keyNotAllowed ∧
      dataVector sink sizeofT values lineSize w = .error .keyNotAllowed) ∧
    ((∃ w1, nul w = .ok w1) ↔ w.block.wroteKey = true) ∧
    ((∃ w1, data sink sizeofT values lineSize w = .ok w1) ↔ w.block.wroteKey = true) ∧
    ((∃ w1, dataVector sink sizeofT values lineSize w = .ok w1) ↔ w.block.wroteKey = true) := by
  have hfail : w.block.wroteKey = false →
      nul w = .error .keyNotAllowed ∧
      data sink sizeofT values lineSize w = .error .keyNotAllowed ∧
      dataVector sink sizeofT values lineSize w = .error .keyNotAllowed := by
    intro hk
    simp [nul, data, dataVector, recordValue_key_refused w false ht hk]
  refine ⟨hfail, ?_, ?_, ?_⟩
  · constructor
    · rintro ⟨w1, h1⟩
      by_contra hk
      rw [(hfail (by simpa using hk)).1] at h1
      cases h1
    · intro hk
      rw [nul, recordValue_value w false false ht hk]
      exact ⟨_, rfl⟩
  · constructor
    · rintro ⟨w1, h1⟩
      by_contra hk
      rw [(hfail (by simpa using hk)).2.1] at h1
      cases h1
    · intro hk
      cases hsink : sink.writeOpenData values.length (values.length * sizeofT) with
      | false => exact ⟨_, data_declined_object sink sizeofT values lineSize w hsink ht hk⟩
      | true => exact ⟨_, data_accepted_object sink sizeofT values lineSize w hsink ht hk⟩
  · constructor
    · rintro ⟨w1, h1⟩
      by_contra hk
      rw [(hfail (by simpa using hk)).2.2] at h1
      cases h1
    · intro hk
      cases hsink : sink.writeOpenData values.length (values.length * sizeofT) with
      | false =>
        rw [dataVector_declined sink sizeofT values lineSize w hsink]
        exact ⟨_, data_declined_object sink sizeofT values lineSize w hsink ht hk⟩
      | true => exact ⟨_, dataVector_accepted_object sink sizeofT values lineSize w hsink ht hk⟩

/-- C7, witness: in the object opened by `obj()` on a fresh writer `nul()` and `data(...)` fail
with "Key not allowed". -/
theorem value_only_writes_refused_as_key_witness :
    nul { blocks := [{ type := .ROOT, capacity := -1, size := 1, maxLineSize := 0, lineSize := 1,
                       wroteKey := false }]
          block := Block.new .OBJECT (-1) 0
          defaultDataLineSize := 32
          calls := [.writeNextValue true true, .writeOpenObject true (-1) false] }
      = .error .keyNotAllowed ∧
    data Sink.base 4 [.int 1, .int 2] useDefaultSize
        { blocks := [{ type := .ROOT, capacity := -1, size := 1, maxLineSize := 0, lineSize := 1,
                       wroteKey := false }]
          block := Block.new .OBJECT (-1) 0
          defaultDataLineSize := 32
          calls := [.writeNextValue true true, .writeOpenObject true (-1) false] }
      = .error .keyNotAllowed ∧
    dataVector Sink.base 4 [.int 1, .int 2] useDefaultSize
        { blocks := [{ type := .ROOT, capacity := -1, size := 1, maxLineSize := 0, lineSize := 1,
                       wroteKey := false }]
          block := Block.new .OBJECT (-1) 0
          defaultDataLineSize := 32
          calls := [.writeNextValue true true, .writeOpenObject true (-1) false] }
      = .error .keyNotAllowed :=
  (value_only_writes_refused_as_key Sink.base
    { blocks := [{ type := .ROOT, capacity := -1, size := 1, maxLineSize := 0, lineSize := 1,
                   wroteKey := false }]
      block := Block.new .OBJECT (-1) 0
      defaultDataLineSize := 32
      calls := [.writeNextValue true true, .writeOpenObject true (-1) false] }
    4 [.int 1, .int 2] useDefaultSize rfl).1 rfl

/-! ## The invariant of reachable writers -/

theorem stackShape_type (b c : Block) (rest : List Block) (h : c.type = b.type) :
    stackShape c rest = stackShape b rest := by
  cases rest <;> simp [stackShape, h]

theorem inv_new : Inv BaseJSONWriter.new := by
  simp [Inv, BaseJSONWriter.new, Block.new, stackShape, Block.WF]

theorem inv_emit (e : Event) (w : BaseJSONWriter) : Inv (emit e w) ↔ Inv w := by
  simp [Inv, emit]

theorem inv_of_block (w w1 : BaseJSONWriter) (h : Inv w) (hb : w1.blocks = w.blocks)
    (ht : w1.block.type = w.block.type) (hwf : w1.block.WF) : Inv w1 := by
  refine ⟨?_, ?_⟩
  · rw [hb, stackShape_type w.block w1.block w.blocks ht]
    exact h.1
  · intro b hmem
    rcases List.mem_cons.mp hmem with rfl | hmem
    · exact hwf
    · exact h.2 b (List.mem_cons_of_mem _ (hb ▸ hmem))

theorem nextValue_inv (ispair isblock : Bool) (w w1 : BaseJSONWriter) (h : Inv w)
    (h1 : nextValue ispair isblock w = .ok w1) : Inv w1 := by
  have hwf : w.block.WF := h.2 _ (List.mem_cons_self _ _)
  unfold nextValue at h1
  split_ifs at h1 with c1 c2 c3 c4
  simp only [Except.ok.injEq] at h1
  subst h1
  rw [inv_emit]
  refine inv_of_block w _ h rfl rfl ?_
  simp only [Block.WF] at hwf ⊢
  obtain ⟨r1, r2, r3, r4⟩ := hwf
  simp only [not_not] at c3 c4
  refine ⟨fun hr => ⟨(r1 hr).1, ?_⟩, by omega, fun hcap => ?_, r4⟩
  · rcases c3 with c3 | c3
    · omega
    · exact absurd hr c3
  · rcases c4 with c4 | c4 <;> omega

theorem checkKey_inv (allowKey k : Bool) (w w1 : BaseJSONWriter) (h : Inv w)
    (h1 : checkKey allowKey w = .ok (k, w1)) : Inv w1 := by
  have hwf : w.block.WF := h.2 _ (List.mem_cons_self _ _)
  unfold checkKey at h1
  simp only at h1
  split_ifs at h1 with c1 c2
  · simp only [Except.ok.injEq, Prod.mk.injEq] at h1
    rw [← h1.2]
    exact h
  · simp only [Except.ok.injEq, Prod.mk.injEq] at h1
    rw [← h1.2]
    refine inv_of_block w _ h rfl rfl ?_
    have ht : w.block.type = .OBJECT := by simpa [inObject] using c1
    simp only [Block.WF] at hwf ⊢
    exact ⟨hwf.1, hwf.2.1, hwf.2.2.1, fun _ => ht⟩

theorem recordValue_inv (allowKey isblock : Bool) (w w1 : BaseJSONWriter) (h : Inv w)
    (h1 : recordValue allowKey isblock w = .ok w1) : Inv w1 := by
  unfold recordValue at h1
  cases hk : checkKey allowKey w with
  | error e => simp [hk] at h1
  | ok r =>
    obtain ⟨k, w2⟩ := r
    have h2 := checkKey_inv allowKey k w w2 h hk
    cases k with
    | true =>
      simp only [hk, Except.ok.injEq] at h1
      exact h1 ▸ h2
    | false =>
      simp only [hk] at h1
      exact nextValue_inv _ _ w2 w1 h2 h1

theorem openBlock_inv (type : BlockType) (capacity : Int) (lineSize : Nat)
    (w w1 : BaseJSONWriter) (h : Inv w) (h1 : openBlock type capacity lineSize w = .ok w1) :
    Inv w1 := by
  unfold openBlock at h1
  by_cases c1 : type = .OBJECT ∨ type = .ARRAY
  swap
  · simp [c1] at h1
  have hne : type ≠ .ROOT := by
    rcases c1 with c1 | c1 <;> simp [c1]
  cases hr : recordValue true true w with
  | error e => simp [c1, hr] at h1
  | ok w2 =>
    have h2 := recordValue_inv true true w w2 h hr
    have hpush : Inv
        { w2 with
          blocks := w2.block :: w2.blocks
          block := Block.new type capacity lineSize } := by
      refine ⟨?_, ?_⟩
      · simp only [stackShape, Block.new, Bool.and_eq_true, bne_iff_ne, ne_eq]
        exact ⟨hne, h2.1⟩
      · intro b hmem
        rcases List.mem_cons.mp hmem with rfl | hmem
        · simp only [Block.WF, Block.new]
          exact ⟨fun hr => absurd hr hne, le_refl _, fun hc => hc, by simp⟩
        · exact h2.2 b hmem
    simp only [c1, hr, not_true_eq_false, if_false] at h1
    split_ifs at h1 <;>
      · simp only [Except.ok.injEq] at h1
        rw [← h1, inv_emit]
        exact hpush

theorem closeBlock_inv (w w1 : BaseJSONWriter) (h : Inv w) (h1 : closeBlock w = .ok w1) :
    Inv w1 := by
  unfold closeBlock at h1
  split_ifs at h1 with c1 c2 c3 c4 c5
  all_goals
    simp only [emit] at h1
    cases hb : w.blocks with
    | nil => simp [hb] at h1
    | cons top rest =>
      simp only [hb, Except.ok.injEq] at h1
      rw [← h1]
      have hs := h.1
      rw [hb] at hs
      simp only [stackShape, Bool.and_eq_true] at hs
      refine ⟨hs.2, ?_⟩
      intro b hmem
      exact h.2 b (List.mem_cons_of_mem _ (hb ▸ hmem))

theorem val_inv (v : Scalar) (w w1 : BaseJSONWriter) (h : Inv w) (h1 : val v w = .ok w1) :
    Inv w1 := by
  unfold val at h1
  cases hr : recordValue true false w with
  | error e => simp [hr] at h1
  | ok w2 =>
    simp only [hr, Except.ok.injEq] at h1
    rw [← h1, inv_emit]
    exact recordValue_inv true false w w2 h hr

theorem nul_inv (w w1 : BaseJSONWriter) (h : Inv w) (h1 : nul w = .ok w1) : Inv w1 := by
  unfold nul at h1
  cases hr : recordValue false false w with
  | error e => simp [hr] at h1
  | ok w2 =>
    simp only [hr, Except.ok.injEq] at h1
    rw [← h1, inv_emit]
    exact recordValue_inv false false w w2 h hr

theorem is_inv (w w1 : BaseJSONWriter) (h : Inv w) (h1 : is w = .ok w1) : Inv w1 := by
  unfold is at h1
  split_ifs at h1
  simp only [Except.ok.injEq] at h1
  exact h1 ▸ h

theorem valLoop_inv (xs : List Scalar) :
    ∀ w w1 : BaseJSONWriter, Inv w → valLoop xs w = .ok w1 → Inv w1 := by
  induction xs with
  | nil =>
    intro w w1 h h1
    simp only [valLoop, Except.ok.injEq] at h1
    exact h1 ▸ h
  | cons x xs ih =>
    intro w w1 h h1
    unfold valLoop at h1
    cases hv : val x w with
    | error e => simp [hv] at h1
    | ok w2 =>
      simp only [hv] at h1
      exact ih w2 w1 (val_inv x w w2 h hv) h1

theorem arrValues_inv (values : List Scalar) (lineSize : Nat) (w w1 : BaseJSONWriter)
    (h : Inv w) (h1 : arrValues values lineSize w = .ok w1) : Inv w1 := by
  unfold arrValues at h1
  cases ha : arr (values.length : Int) lineSize w with
  | error e => simp [ha] at h1
  | ok w2 =>
    simp only [ha] at h1
    have h2 := openBlock_inv _ _ _ w w2 h ha
    cases hl : valLoop values w2 with
    | error e => simp [hl] at h1
    | ok w3 =>
      simp only [hl] at h1
      exact closeBlock_inv w3 w1 (valLoop_inv values w2 w3 h2 hl) h1

theorem dataItemLoop_inv (sizeofT : Nat) (values : List Scalar) (w : BaseJSONWriter) :
    Inv (dataItemLoop sizeofT values w) ↔ Inv w := by
  rw [dataItemLoop_calls]
  simp [Inv]

theorem valuesBuffer_inv (sink : Sink) (sizeofT : Nat) (values : List Scalar) (lineSize : Nat)
    (w w1 : BaseJSONWriter) (h : Inv w)
    (h1 : valuesBuffer sink sizeofT values lineSize w = .ok w1) : Inv w1 := by
  unfold valuesBuffer at h1
  simp only at h1
  split_ifs at h1 with c1
  · simp only [Except.ok.injEq] at h1
    rw [← h1, inv_emit, inv_emit, inv_emit]
    exact h
  · cases hk : checkKey true (emit (.writeOpenData values.length (values.length * sizeofT)) w) with
    | error e => simp [hk] at h1
    | ok r =>
      obtain ⟨k, w2⟩ := r
      simp only [hk] at h1
      exact arrValues_inv values lineSize w2 w1
        (checkKey_inv true k _ w2 ((inv_emit _ w).mpr h) hk) h1

theorem valuesVector_inv (sink : Sink) (sizeofT : Nat) (values : List Scalar) (lineSize : Nat)
    (w w1 : BaseJSONWriter) (h : Inv w)
    (h1 : valuesVector sink sizeofT values lineSize w = .ok w1) : Inv w1 := by
  unfold valuesVector at h1
  simp only at h1
  split_ifs at h1 with c1
  · simp only [Except.ok.injEq] at h1
    rw [← h1, inv_emit, dataItemLoop_inv, inv_emit]
    exact h
  · cases hk : checkKey true (emit (.writeOpenData values.length (values.length * sizeofT)) w) with
    | error e => simp [hk] at h1
    | ok r =>
      obtain ⟨k, w2⟩ := r
      simp only [hk] at h1
      exact arrValues_inv values lineSize w2 w1
        (checkKey_inv true k _ w2 ((inv_emit _ w).mpr h) hk) h1

theorem data_inv (sink : Sink) (sizeofT : Nat) (v : List Scalar) (lineSize : Nat)
    (w w1 : BaseJSONWriter) (h : Inv w) (h1 : data sink sizeofT v lineSize w = .ok w1) :
    Inv w1 := by
  simp only [data] at h1
  cases hr : recordValue false false w with
  | error e => simp [hr] at h1
  | ok w2 =>
    simp only [hr] at h1
    exact valuesBuffer_inv sink sizeofT v _ w2 w1 (recordValue_inv _ _ w w2 h hr) h1

theorem valCharArray_inv (v : String) (w w1 : BaseJSONWriter) (h : Inv w)
    (h1 : valCharArray v w = .ok w1) : Inv w1 := by
  unfold valCharArray at h1
  cases hr : recordValue true false w with
  | error e => simp [hr] at h1
  | ok w2 =>
    simp only [hr, Except.ok.injEq] at h1
    rw [← h1, inv_emit]
    exact recordValue_inv true false w w2 h hr

theorem valArray_inv (sink : Sink) (sizeofT : Nat) (v : List Scalar)
    (w w1 : BaseJSONWriter) (h : Inv w) (h1 : valArray sink sizeofT v w = .ok w1) :
    Inv w1 := by
  unfold valArray at h1
  cases hr : recordValue true false w with
  | error e => simp [hr] at h1
  | ok w2 =>
    simp only [hr] at h1
    cases hk : checkKey true w2 with
    | error e => simp [hk] at h1
    | ok r =>
      obtain ⟨k, w3⟩ := r
      simp only [hk] at h1
      exact data_inv sink sizeofT v _ w3 w1
        (checkKey_inv true k w2 w3 (recordValue_inv _ _ w w2 h hr) hk) h1

theorem step_inv (sink : Sink) (op : Op) (w w1 : BaseJSONWriter) (h : Inv w)
    (h1 : step sink op w = .ok w1) : Inv w1 := by
  cases op with
  | obj capacity maxLineSize => exact openBlock_inv .OBJECT capacity maxLineSize w w1 h h1
  | arr capacity maxLineSize => exact openBlock_inv .ARRAY capacity maxLineSize w w1 h h1
  | end_ => exact closeBlock_inv w w1 h h1
  | is => exact is_inv w w1 h h1
  | nul => exact nul_inv w w1 h h1
  | val v => exact val_inv v w w1 h h1
  | arrValues values lineSize => exact arrValues_inv values lineSize w w1 h h1
  | data sizeofT v lineSize =>
    simp only [step, data] at h1
    cases hr : recordValue false false w with
    | error e => simp [hr] at h1
    | ok w2 =>
      simp only [hr] at h1
      exact valuesBuffer_inv sink sizeofT v _ w2 w1 (recordValue_inv _ _ w w2 h hr) h1
  | dataVector sizeofT v lineSize =>
    simp only [step, dataVector] at h1
    cases hr : recordValue false false w with
    | error e => simp [hr] at h1
    | ok w2 =>
      simp only [hr] at h1
      exact valuesVector_inv sink sizeofT v _ w2 w1 (recordValue_inv _ _ w w2 h hr) h1
  | pair key value =>
    simp only [step, pair] at h1
    cases hv : val key w with
    | error e => simp [hv] at h1
    | ok w2 =>
      simp only [hv] at h1
      cases hi : is w2 with
      | error e => simp [hi] at h1
      | ok w3 =>
        simp only [hi] at h1
        exact val_inv value w3 w1 (is_inv w2 w3 (val_inv key w w2 h hv) hi) h1
  | valCharArray v => exact valCharArray_inv v w w1 h h1
  | valArray sizeofT v => exact valArray_inv sink sizeofT v w w1 h h1

theorem reachable_inv (w : BaseJSONWriter) (h : Reachable w) : Inv w := by
  induction h with
  | new => exact inv_new
  | step sink op w w1 _ h1 ih => exact step_inv sink op w w1 ih h1

theorem reachable_run (sink : Sink) (ops : List Op) :
    ∀ w w1 : BaseJSONWriter, Reachable w → run sink ops w = .ok w1 → Reachable w1 := by
  induction ops with
  | nil =>
    intro w w1 h h1
    simp only [run, Except.ok.injEq] at h1
    exact h1 ▸ h
  | cons op ops ih =>
    intro w w1 h h1
    unfold run at h1
    cases hs : step sink op w with
    | error e => simp [hs] at h1
    | ok w2 =>
      simp only [hs] at h1
      exact ih w2 w1 (Reachable.step sink op w w2 h hs) h1

theorem stackShape_root (b : Block) (rest : List Block) (h : stackShape b rest = true) :
    b.type = .ROOT ↔ rest = [] := by
  cases rest with
  | nil => simpa [stackShape] using h
  | cons p rest =>
    simp only [stackShape, Bool.and_eq_true, bne_iff_ne, ne_eq] at h
    simp [h.1]

/-! ## The top-level container -/

theorem openBlock_root (type : BlockType) (capacity : Int) (lineSize : Nat)
    (w : BaseJSONWriter) (hty : type = .OBJECT ∨ type = .ARRAY) (ht : w.block.type = .ROOT)
    (hc : w.block.capacity < 0) :
    ((∃ w1, openBlock type capacity lineSize w = .ok w1) ↔ w.block.size = 0) ∧
    (w.block.size ≠ 0 → openBlock type capacity lineSize w = .error .oneBlockPerInstance) := by
  have hne : w.block.type ≠ .OBJECT := by simp [ht]
  by_cases hs : w.block.size = 0
  · refine ⟨⟨fun _ => hs, fun _ => ?_⟩, fun h => absurd hs h⟩
    rcases hty with rfl | rfl <;>
      simp [openBlock, recordValue_not_object w true true hne, nextValue, ht, hs, hc]
  · have herr : openBlock type capacity lineSize w = .error .oneBlockPerInstance := by
      rcases hty with rfl | rfl <;>
        simp [openBlock, recordValue_not_object w true true hne, nextValue, ht, hs]
    refine ⟨⟨?_, fun h => absurd h hs⟩, fun _ => herr⟩
    rintro ⟨w1, h1⟩
    rw [herr] at h1
    cases h1

/-- C4. Exactly one top-level container per writer instance.  In every state reachable from a
fresh writer whose current frame is Root, `obj(...)` and `arr(...)`, with any capacity and line
size, succeed iff the Root frame's size is `0`, and fail with "Can only write one object or array
per instance" otherwise; in every reachable state a Root frame, current or saved, has size at
most `1`; and after `obj()`, `end()` on a fresh writer every `obj(...)` and `arr(...)` fails. -/
theorem exactly_one_top_level_container (w : BaseJSONWriter) (h : Reachable w) :
    (w.block.type = .ROOT → ∀ (capacity : Int) (lineSize : Nat),
      ((∃ w1, obj capacity lineSize w = .ok w1) ↔ w.block.size = 0) ∧
      ((∃ w1, arr capacity lineSize w = .ok w1) ↔ w.block.size = 0) ∧
      (w.block.size ≠ 0 →
        obj capacity lineSize w = .error .oneBlockPerInstance ∧
        arr capacity lineSize w = .error .oneBlockPerInstance)) ∧
    (∀ b ∈ w.block :: w.blocks, b.type = .ROOT → b.size ≤ 1) ∧
    (∀ (sink : Sink) (capacity : Int) (lineSize : Nat),
      run sink [.obj (-1) 0, .end_, .obj capacity lineSize] BaseJSONWriter.new
        = .error .oneBlockPerInstance ∧
      run sink [.obj (-1) 0, .end_, .arr capacity lineSize] BaseJSONWriter.new
        = .error .oneBlockPerInstance) := by
  have hinv := reachable_inv w h
  refine ⟨?_, ?_, ?_⟩
  · intro ht capacity lineSize
    have hc : w.block.capacity < 0 := ((hinv.2 _ (List.mem_cons_self _ _)).1 ht).1
    have ho := openBlock_root .OBJECT capacity lineSize w (Or.inl rfl) ht hc
    have ha := openBlock_root .ARRAY capacity lineSize w (Or.inr rfl) ht hc
    exact ⟨ho.1, ha.1, fun hs => ⟨ho.2 hs, ha.2 hs⟩⟩
  · intro b hb hr
    exact ((hinv.2 b hb).1 hr).2
  · intro sink capacity lineSize
    constructor <;>
      simp [run, step, obj, arr, end_, openBlock, closeBlock, recordValue, checkKey, inObject,
        nextValue, BaseJSONWriter.new, Block.new, emit]

/-- C4, witness: on the fresh writer a first `obj()` and a first `arr(3)` succeed; after
`obj()`, `end()` a second `obj()` and a second `arr()` fail. -/
theorem exactly_one_top_level_container_witness :
    ((∃ w1, obj (-1) 0 BaseJSONWriter.new = .ok w1) ∧
      (∃ w1, arr 3 0 BaseJSONWriter.new = .ok w1)) ∧
    (obj (-1) 0
        { blocks := []
          block := { type := .ROOT, capacity := -1, size := 1, maxLineSize := 0, lineSize := 1,
                     wroteKey := false }
          defaultDataLineSize := 32
          calls := [.writeNextValue true true, .writeOpenObject true (-1) false,
            .writeCloseObject true 0 false] } = .error .oneBlockPerInstance ∧
      arr (-1) 0
        { blocks := []
          block := { type := .ROOT, capacity := -1, size := 1, maxLineSize := 0, lineSize := 1,
                     wroteKey := false }
          defaultDataLineSize := 32
          calls := [.writeNextValue true true, .writeOpenObject true (-1) false,
            .writeCloseObject true 0 false] } = .error .oneBlockPerInstance) :=
  ⟨⟨(((exactly_one_top_level_container BaseJSONWriter.new Reachable.new).1 rfl (-1) 0).1).mpr rfl,
    (((exactly_one_top_level_container BaseJSONWriter.new Reachable.new).1 rfl 3 0).2.1).mpr rfl⟩,
   ((exactly_one_top_level_container
      { blocks := []
        block := { type := .ROOT, capacity := -1, size := 1, maxLineSize := 0, lineSize := 1,
                   wroteKey := false }
        defaultDataLineSize := 32
        calls := [.writeNextValue true true, .writeOpenObject true (-1) false,
          .writeCloseObject true 0 false] }
      (reachable_run Sink.base [.obj (-1) 0, .end_] BaseJSONWriter.new _ Reachable.new (by rfl))).1
      rfl (-1) 0).2.2 (by decide)⟩

/-! ## Closing a container -/

/-- C6. Exact failure condition of close.  In every state of a writer, `end()` succeeds iff the
current frame is not Root, its capacity is undeclared (negative) or equal to its size, and, for
an Object, no key is outstanding.  Otherwise it fails: with "Unmatched blocks" on Root, else with
"Reserved capacity not reached yet" when the declared capacity differs from the size, else with
"Key written without value". -/
theorem close_succeeds_iff (w : BaseJSONWriter) (h : Reachable w) :
    ((∃ w1, end_ w = .ok w1) ↔
      (w.block.type ≠ .ROOT ∧ (w.block.capacity < 0 ∨ w.block.size = w.block.capacity) ∧
        (w.block.type = .OBJECT → w.block.wroteKey = false))) ∧
    (w.block.type = .ROOT → end_ w = .error .unmatchedBlocks) ∧
    (w.block.type ≠ .ROOT → ¬ (w.block.capacity < 0 ∨ w.block.size = w.block.capacity) →
      end_ w = .error .capacityNotReached) ∧
    (w.block.type ≠ .ROOT → (w.block.capacity < 0 ∨ w.block.size = w.block.capacity) →
      w.block.wroteKey = true → end_ w = .error .keyWithoutValue) := by
  have hinv := reachable_inv w h
  have hroot := stackShape_root w.block w.blocks hinv.1
  have hkey : w.block.wroteKey = true → w.block.type = .OBJECT :=
    (hinv.2 _ (List.mem_cons_self _ _)).2.2.2
  have h1 : w.block.type = .ROOT → end_ w = .error .unmatchedBlocks := by
    intro ht
    simp [end_, closeBlock, ht]
  have h2 : w.block.type ≠ .ROOT →
      ¬ (w.block.capacity < 0 ∨ w.block.size = w.block.capacity) →
      end_ w = .error .capacityNotReached := by
    intro ht hc
    have hb : w.blocks ≠ [] := fun hb => ht (hroot.mpr hb)
    simp [end_, closeBlock, ht, hb, hc]
  have h3 : w.block.type ≠ .ROOT →
      (w.block.capacity < 0 ∨ w.block.size = w.block.capacity) →
      w.block.wroteKey = true → end_ w = .error .keyWithoutValue := by
    intro ht hc hk
    have hb : w.blocks ≠ [] := fun hb => ht (hroot.mpr hb)
    simp [end_, closeBlock, ht, hb, hc, hk]
  refine ⟨⟨?_, ?_⟩, h1, h2, h3⟩
  · rintro ⟨w1, hw1⟩
    by_cases ht : w.block.type = .ROOT
    · rw [h1 ht] at hw1
      cases hw1
    · by_cases hc : w.block.capacity < 0 ∨ w.block.size = w.block.capacity
      · refine ⟨ht, hc, fun _ => ?_⟩
        by_contra hk
        rw [h3 ht hc (by simpa using hk)] at hw1
        cases hw1
      · rw [h2 ht hc] at hw1
        cases hw1
  · rintro ⟨ht, hc, hk⟩
    have hb : w.blocks ≠ [] := fun hb => ht (hroot.mpr hb)
    have hk2 : w.block.wroteKey = false := by
      by_contra hk2
      have hk3 : w.block.wroteKey = true := by simpa using hk2
      rw [hk (hkey hk3)] at hk3
      cases hk3
    have hty : w.block.type = .OBJECT ∨ w.block.type = .ARRAY := by
      cases hty : w.block.type with
      | ROOT => exact absurd hty ht
      | OBJECT => exact Or.inl rfl
      | ARRAY => exact Or.inr rfl
    obtain ⟨top, rest, hbl⟩ := List.exists_cons_of_ne_nil hb
    rcases hty with hty | hty <;>
      simp [end_, closeBlock, hty, hbl, hc, hk2, emit]

/-- C6, witness: after `arr(1)` on a fresh writer `end()` fails with "Reserved capacity not
reached yet"; on the fresh writer it fails with "Unmatched blocks". -/
theorem close_succeeds_iff_witness :
    end_ { blocks := [{ type := .ROOT, capacity := -1, size := 1, maxLineSize := 0,
                        lineSize := 1, wroteKey := false }]
           block := Block.new .ARRAY 1 0
           defaultDataLineSize := 32
           calls := [.writeNextValue true true, .writeOpenArray false 1 false] }
      = .error .capacityNotReached ∧
    end_ BaseJSONWriter.new = .error .unmatchedBlocks :=
  ⟨(close_succeeds_iff
      { blocks := [{ type := .ROOT, capacity := -1, size := 1, maxLineSize := 0,
                     lineSize := 1, wroteKey := false }]
        block := Block.new .ARRAY 1 0
        defaultDataLineSize := 32
        calls := [.writeNextValue true true, .writeOpenArray false 1 false] }
      (reachable_run Sink.base [.arr 1 0] BaseJSONWriter.new _ Reachable.new (by rfl))).2.2.1
      (by decide) (by decide),
   (close_succeeds_iff BaseJSONWriter.new Reachable.new).2.1 rfl⟩

/-! ## The bulk write and its two paths -/

theorem recordValue_frame (allowKey isblock : Bool) (w w1 : BaseJSONWriter)
    (h : recordValue allowKey isblock w = .ok w1) :
    w1.blocks = w.blocks ∧ w1.defaultDataLineSize = w.defaultDataLineSize ∧
      (w1.calls = w.calls ∨ w1.calls = w.calls ++ [w.block.separator]) := by
  unfold recordValue checkKey at h
  simp only at h
  split_ifs at h with c1 c2
  · simp only at h
    unfold nextValue at h
    split_ifs at h
    simp only [Except.ok.injEq] at h
    rw [← h]
    simp [emit, Block.separator]
  · cases hk : w.block.wroteKey with
    | true =>
      simp only [hk, Bool.not_true, Bool.not_false, Except.ok.injEq] at h
      rw [← h]
      simp
    | false =>
      simp only [hk, Bool.not_true, Bool.not_false] at h
      unfold nextValue at h
      split_ifs at h
      simp only [Except.ok.injEq] at h
      rw [← h]
      simp [emit, Block.separator]

theorem wrapFlags_length (maxLineSize : Nat) (count : Nat) :
    ∀ lineSize : Nat, (wrapFlags maxLineSize lineSize count).length = count := by
  induction count with
  | zero => intro lineSize; simp [wrapFlags]
  | succ n ih => intro lineSize; simp [wrapFlags, ih]

theorem itemCalls_length (values : List Scalar) :
    ∀ (first : Bool) (flags : List Bool), flags.length = values.length →
      (itemCalls first values flags).length = 2 * values.length := by
  induction values with
  | nil => intro first flags _; simp [itemCalls]
  | cons v rest ih =>
    intro first flags h
    cases flags with
    | nil => simp at h
    | cons f flags =>
      simp only [itemCalls, List.length_cons, ih false flags (by simpa using h)]
      omega

/-- C8, the code at the failing input.  In the array opened by `arr()` on a fresh writer,
`data` of three integers with the sink of the base class, which declines, leaves the enclosing
array with size `2` and makes two `writeNextValue` calls for it before `writeOpenArray`; with an
accepting sink the same call leaves size `1` after one `writeNextValue`.  In an array of
capacity `1` the declined bulk write fails with "Block capacity exceeded", the accepted one
fills the array. -/
theorem declined_bulk_write_takes_two_slots :
    run Sink.base [.arr (-1) 0, .data 4 [.int 1, .int 2, .int 3] useDefaultSize]
        BaseJSONWriter.new = .ok
      { blocks := [{ type := .ROOT, capacity := -1, size := 1, maxLineSize := 0, lineSize := 1,
                     wroteKey := false }]
        block := { type := .ARRAY, capacity := -1, size := 2, maxLineSize := 0, lineSize := 1,
                   wroteKey := false }
        defaultDataLineSize := 32
        calls := [.writeNextValue true true, .writeOpenArray true (-1) false,
          .writeNextValue true true, .writeOpenData 3 12, .writeNextValue false true,
          .writeOpenArray false 3 true,
          .writeNextValue true false, .writeValue (.int 1) false,
          .writeNextValue false false, .writeValue (.int 2) false,
          .writeNextValue false false, .writeValue (.int 3) false,
          .writeCloseArray false 3 true] } ∧
    run Sink.accepting [.arr (-1) 0, .data 4 [.int 1, .int 2, .int 3] useDefaultSize]
        BaseJSONWriter.new = .ok
      { blocks := [{ type := .ROOT, capacity := -1, size := 1, maxLineSize := 0, lineSize := 1,
                     wroteKey := false }]
        block := { type := .ARRAY, capacity := -1, size := 1, maxLineSize := 0, lineSize := 1,
                   wroteKey := false }
        defaultDataLineSize := 32
        calls := [.writeNextValue true true, .writeOpenArray true (-1) false,
          .writeNextValue true true, .writeOpenData 3 12,
          .writeDataItem [.int 1, .int 2, .int 3] 12, .writeCloseData 3 12] } ∧
    run Sink.base [.arr 1 0, .data 4 [.int 1, .int 2, .int 3] useDefaultSize]
        BaseJSONWriter.new = .error .capacityExceeded ∧
    (∃ w1, run Sink.accepting [.arr 1 0, .data 4 [.int 1, .int 2, .int 3] useDefaultSize, .end_]
        BaseJSONWriter.new = .ok w1) :=
  ⟨by rfl, by rfl, by rfl, ⟨_, by rfl⟩⟩

/-- C9. Bulk fallback for a declining sink.  When the sink declines `writeOpenData` and the
checks of the enclosing frame pass (the one of `data`, line 347, `checkKey` of `values`,
line 204, and the one of `openBlock`, lines 132-133), `data(values)`, from a buffer and from a
vector, succeeds, and from the array-open onward it makes exactly the calls
`writeOpenArray(false, n, n ≤ w)`, then for each element a `writeNextValue` (first only on the
first element) followed by `writeValue(e_i, false)`, then `writeCloseArray(false, n, n ≤ w)`,
where `w` is the line size the bulk write runs with (`dataLineSize`); the current frame and the
saved frames are those the checks left.  These calls are `2 * n + 2` in number, and the inner
array is `arr(n, w)`, `n` times `val`, `end()`. -/
theorem bulk_fallback_for_declining_sink (sink : Sink) (sizeofT : Nat) (v : List Scalar)
    (lineSize : Nat) (w w1 w2 w3 : BaseJSONWriter) (k : Bool)
    (hsink : sink.writeOpenData v.length (v.length * sizeofT) = false)
    (h1 : recordValue false false w = .ok w1)
    (h2 : checkKey true (emit (.writeOpenData v.length (v.length * sizeofT)) w1) = .ok (k, w2))
    (h3 : recordValue true true w2 = .ok w3) :
    data sink sizeofT v lineSize w
      = .ok { w3 with calls := w3.calls ++ fallbackCalls v (dataLineSize w lineSize) } ∧
    dataVector sink sizeofT v lineSize w
      = .ok { w3 with calls := w3.calls ++ fallbackCalls v (dataLineSize w lineSize) } ∧
    fallbackCalls v (dataLineSize w lineSize)
      = [.writeOpenArray false v.length (decide (v.length ≤ dataLineSize w lineSize))] ++
        itemCalls true v (wrapFlags (dataLineSize w lineSize) 0 v.length) ++
        [.writeCloseArray false v.length (decide (v.length ≤ dataLineSize w lineSize))] ∧
    (fallbackCalls v (dataLineSize w lineSize)).length = 2 * v.length + 2 ∧
    arrValues v (dataLineSize w lineSize) w2
      = run sink (.arr v.length (dataLineSize w lineSize) :: (v.map .val ++ [.end_])) w2 := by
  have hd : data sink sizeofT v lineSize w
      = .ok { w3 with calls := w3.calls ++ fallbackCalls v (dataLineSize w lineSize) } := by
    have hdef : dataLineSize w1 lineSize = dataLineSize w lineSize := by
      simp [dataLineSize, (recordValue_frame false false w w1 h1).2.1]
    rw [data, h1]
    simp only [valuesBuffer, hsink, Bool.false_eq_true, if_false]
    rw [h2]
    simp only
    rw [arrValues_of_recordValue v _ w2 w3 h3, hdef]
  refine ⟨hd, ?_, rfl, ?_, arrValues_eq_run sink v _ w2⟩
  · rw [dataVector_declined sink sizeofT v lineSize w hsink, hd]
  · simp only [fallbackCalls, List.length_append, List.length_singleton,
      itemCalls_length v true _ (wrapFlags_length _ _ _)]
    omega

/-- C9, witness: five integers written by `data` with line size 3 in the object opened on a
fresh writer, after a key, with the sink of the base class. -/
theorem bulk_fallback_for_declining_sink_witness :
    data Sink.base 4 [.int 1, .int 2, .int 3, .int 4, .int 5] 3
        { blocks := [{ type := .ROOT, capacity := -1, size := 1, maxLineSize := 0, lineSize := 1,
                       wroteKey := false }]
          block := { type := .OBJECT, capacity := -1, size := 1, maxLineSize := 0, lineSize := 1,
                     wroteKey := true }
          defaultDataLineSize := 32
          calls := [.writeNextValue true true, .writeOpenObject true (-1) false,
            .writeNextValue true true, .writeValue (.int 0) true] }
      = .ok
        { blocks := [{ type := .ROOT, capacity := -1, size := 1, maxLineSize := 0, lineSize := 1,
                       wroteKey := false }]
          block := { type := .OBJECT, capacity := -1, size := 1, maxLineSize := 0, lineSize := 1,
                     wroteKey := false }
          defaultDataLineSize := 32
          calls := [.writeNextValue true true, .writeOpenObject true (-1) false,
            .writeNextValue true true, .writeValue (.int 0) true, .writeOpenData 5 20,
            .writeOpenArray false 5 false,
            .writeNextValue true false, .writeValue (.int 1) false,
            .writeNextValue false false, .writeValue (.int 2) false,
            .writeNextValue false false, .writeValue (.int 3) false,
            .writeNextValue false true, .writeValue (.int 4) false,
            .writeNextValue false false, .writeValue (.int 5) false,
            .writeCloseArray false 5 false] } :=
  (bulk_fallback_for_declining_sink Sink.base 4 [.int 1, .int 2, .int 3, .int 4, .int 5] 3
    { blocks := [{ type := .ROOT, capacity := -1, size := 1, maxLineSize := 0, lineSize := 1,
                   wroteKey := false }]
      block := { type := .OBJECT, capacity := -1, size := 1, maxLineSize := 0, lineSize := 1,
                 wroteKey := true }
      defaultDataLineSize := 32
      calls := [.writeNextValue true true, .writeOpenObject true (-1) false,
        .writeNextValue true true, .writeValue (.int 0) true] }
    { blocks := [{ type := .ROOT, capacity := -1, size := 1, maxLineSize := 0, lineSize := 1,
                   wroteKey := false }]
      block := { type := .OBJECT, capacity := -1, size := 1, maxLineSize := 0, lineSize := 1,
                 wroteKey := false }
      defaultDataLineSize := 32
      calls := [.writeNextValue true true, .writeOpenObject true (-1) false,
        .writeNextValue true true, .writeValue (.int 0) true] }
    { blocks := [{ type := .ROOT, capacity := -1, size := 1, maxLineSize := 0, lineSize := 1,
                   wroteKey := false }]
      block := { type := .OBJECT, capacity := -1, size := 1, maxLineSize := 0, lineSize := 1,
                 wroteKey := true }
      defaultDataLineSize := 32
      calls := [.writeNextValue true true, .writeOpenObject true (-1) false,
        .writeNextValue true true, .writeValue (.int 0) true, .writeOpenData 5 20] }
    { blocks := [{ type := .ROOT, capacity := -1, size := 1, maxLineSize := 0, lineSize := 1,
                   wroteKey := false }]
      block := { type := .OBJECT, capacity := -1, size := 1, maxLineSize := 0, lineSize := 1,
                 wroteKey := false }
      defaultDataLineSize := 32
      calls := [.writeNextValue true true, .writeOpenObject true (-1) false,
        .writeNextValue true true, .writeValue (.int 0) true, .writeOpenData 5 20] }
    false (by rfl) (by rfl) (by rfl) (by rfl)).1

/-- C10. Bulk fast path for an accepting sink.  When the sink accepts `writeOpenData(n, n * s)`
and the check of the enclosing frame passes (line 347), `data(values)` makes, after that check,
exactly the calls `writeOpenData(n, n * s)`, `writeDataItem` and `writeCloseData(n, n * s)`: for
a buffer one `writeDataItem` with all the elements and `n * s` bytes, for a vector `n` calls of
one element and `s` bytes each, in element order; the byte counts add up to `n * s`.  No other
call is made and no frame is pushed: the frames are those the check left, and the check itself
makes at most the one `writeNextValue` of the enclosing frame. -/
theorem bulk_fast_path_for_accepting_sink (sink : Sink) (sizeofT : Nat) (v : List Scalar)
    (lineSize : Nat) (w w1 : BaseJSONWriter)
    (hsink : sink.writeOpenData v.length (v.length * sizeofT) = true)
    (h1 : recordValue false false w = .ok w1) :
    data sink sizeofT v lineSize w
      = .ok
        { w1 with
          calls := w1.calls ++ [.writeOpenData v.length (v.length * sizeofT),
            .writeDataItem v (v.length * sizeofT),
            .writeCloseData v.length (v.length * sizeofT)] } ∧
    dataVector sink sizeofT v lineSize w
      = .ok
        { w1 with
          calls := w1.calls ++ [.writeOpenData v.length (v.length * sizeofT)] ++
            v.map (fun e => .writeDataItem [e] sizeofT) ++
            [.writeCloseData v.length (v.length * sizeofT)] } ∧
    dataItemBytes [.writeDataItem v (v.length * sizeofT)] = v.length * sizeofT ∧
    dataItemBytes (v.map (fun e => .writeDataItem [e] sizeofT)) = v.length * sizeofT ∧
    (v.map (fun e => Event.writeDataItem [e] sizeofT)).length = v.length ∧
    w1.blocks = w.blocks ∧
    (w1.calls = w.calls ∨ w1.calls = w.calls ++ [w.block.separator]) := by
  have hf := recordValue_frame false false w w1 h1
  refine ⟨?_, ?_, by simp [dataItemBytes], dataItemBytes_vectorItemCalls sizeofT v, by simp,
    hf.1, hf.2.2⟩
  · rw [data, h1]
    simp [valuesBuffer, hsink, emit]
  · rw [dataVector, h1]
    simp [valuesVector, hsink, emit, dataItemLoop_calls, vectorItemCalls]

/-- C10, witness: five integers of four bytes written with an accepting sink in the array
opened on a fresh writer give `writeOpenData(5, 20)`, one `writeDataItem` of 20 bytes and
`writeCloseData(5, 20)`. -/
theorem bulk_fast_path_for_accepting_sink_witness :
    data Sink.accepting 4 [.int 1, .int 2, .int 3, .int 4, .int 5] useDefaultSize
        { blocks := [{ type := .ROOT, capacity := -1, size := 1, maxLineSize := 0, lineSize := 1,
                       wroteKey := false }]
          block := Block.new .ARRAY (-1) 0
          defaultDataLineSize := 32
          calls := [.writeNextValue true true, .writeOpenArray true (-1) false] }
      = .ok
        { blocks := [{ type := .ROOT, capacity := -1, size := 1, maxLineSize := 0, lineSize := 1,
                       wroteKey := false }]
          block := { type := .ARRAY, capacity := -1, size := 1, maxLineSize := 0, lineSize := 1,
                     wroteKey := false }
          defaultDataLineSize := 32
          calls := [.writeNextValue true true, .writeOpenArray true (-1) false,
            .writeNextValue true true, .writeOpenData 5 20,
            .writeDataItem [.int 1, .int 2, .int 3, .int 4, .int 5] 20,
            .writeCloseData 5 20] } :=
  (bulk_fast_path_for_accepting_sink Sink.accepting 4
    [.int 1, .int 2, .int 3, .int 4, .int 5] useDefaultSize
    { blocks := [{ type := .ROOT, capacity := -1, size := 1, maxLineSize := 0, lineSize := 1,
                   wroteKey := false }]
      block := Block.new .ARRAY (-1) 0
      defaultDataLineSize := 32
      calls := [.writeNextValue true true, .writeOpenArray true (-1) false] }
    { blocks := [{ type := .ROOT, capacity := -1, size := 1, maxLineSize := 0, lineSize := 1,
                   wroteKey := false }]
      block := { type := .ARRAY, capacity := -1, size := 1, maxLineSize := 0, lineSize := 1,
                 wroteKey := false }
      defaultDataLineSize := 32
      calls := [.writeNextValue true true, .writeOpenArray true (-1) false,
        .writeNextValue true true] }
    (by rfl) (by rfl)).1

/-! ## The calls of a scalar write -/

theorem val_object_key_full (v : Scalar) (w : BaseJSONWriter) (ht : w.block.type = .OBJECT)
    (hk : w.block.wroteKey = false)
    (hc : ¬ (w.block.capacity < 0 ∨ w.block.size < w.block.capacity)) :
    val v w = .error .capacityExceeded := by
  simp [val, recordValue_key w false ht hk, nextValue, ht, hc]

/-- C11, counterexample.  In the object opened on a fresh writer, after the key `1`, the write
`val(2)` lands in the value position and makes the single call `writeValue(2, false)`: no
`writeNextValue` comes before it. -/
theorem object_value_write_has_no_separator :
    val (.int 2)
        { blocks := [{ type := .ROOT, capacity := -1, size := 1, maxLineSize := 0, lineSize := 1,
                       wroteKey := false }]
          block := { type := .OBJECT, capacity := -1, size := 1, maxLineSize := 0, lineSize := 1,
                     wroteKey := true }
          defaultDataLineSize := 32
          calls := [.writeNextValue true true, .writeOpenObject true (-1) false,
            .writeNextValue true true, .writeValue (.int 1) true] }
      = .ok
        { blocks := [{ type := .ROOT, capacity := -1, size := 1, maxLineSize := 0, lineSize := 1,
                       wroteKey := false }]
          block := { type := .OBJECT, capacity := -1, size := 1, maxLineSize := 0, lineSize := 1,
                     wroteKey := false }
          defaultDataLineSize := 32
          calls := [.writeNextValue true true, .writeOpenObject true (-1) false,
            .writeNextValue true true, .writeValue (.int 1) true] ++
            [.writeValue (.int 2) false] } ∧
    ¬ ∃ (first newline iskey : Bool) (w1 : BaseJSONWriter),
      val (.int 2)
        { blocks := [{ type := .ROOT, capacity := -1, size := 1, maxLineSize := 0, lineSize := 1,
                       wroteKey := false }]
          block := { type := .OBJECT, capacity := -1, size := 1, maxLineSize := 0, lineSize := 1,
                     wroteKey := true }
          defaultDataLineSize := 32
          calls := [.writeNextValue true true, .writeOpenObject true (-1) false,
            .writeNextValue true true, .writeValue (.int 1) true] } = .ok w1 ∧
      w1.calls = [.writeNextValue true true, .writeOpenObject true (-1) false,
            .writeNextValue true true, .writeValue (.int 1) true] ++
            [.writeNextValue first newline, .writeValue (.int 2) iskey] := by
  refine ⟨by rfl, ?_⟩
  rintro ⟨first, newline, iskey, w1, h, hc⟩
  rw [val_object_value _ _ (by rfl) (by rfl)] at h
  simp only [Except.ok.injEq] at h
  rw [← h] at hc
  simp at hc

/-- C11, amended.  A successful scalar write `val(x)` makes, in an Array and in the key position
of an Object, exactly one `writeNextValue` immediately followed by exactly one `writeValue` for
`x` (as a key in the Object) and no other call; in the value position of an Object it makes the
one `writeValue(x, false)` and no `writeNextValue`: the separator is signalled once per
key/value pair, before the key.  It never succeeds under Root. -/
theorem scalar_write_calls (x : Scalar) (w w1 : BaseJSONWriter) (h : val x w = .ok w1) :
    w.block.type ≠ .ROOT ∧
    (w.block.type = .ARRAY →
      w1.calls = w.calls ++
        [.writeNextValue (decide (w.block.size = 0))
            (decide ((w.block.lineSize + 1) % 4294967296 > w.block.maxLineSize)),
          .writeValue x w.block.wroteKey]) ∧
    (w.block.type = .OBJECT → w.block.wroteKey = false →
      w1.calls = w.calls ++
        [.writeNextValue (decide (w.block.size = 0))
            (decide ((w.block.lineSize + 1) % 4294967296 > w.block.maxLineSize)),
          .writeValue x true]) ∧
    (w.block.type = .OBJECT → w.block.wroteKey = true →
      w1.calls = w.calls ++ [.writeValue x false]) := by
  refine ⟨?_, ?_, ?_, ?_⟩
  · intro ht
    simp [val, recordValue_root true w ht] at h
  · intro ht
    by_cases hc : w.block.capacity < 0 ∨ w.block.size < w.block.capacity
    · rw [val_array x w ht hc] at h
      simp only [Except.ok.injEq] at h
      rw [← h]
    · rw [val_array_full x w ht hc] at h
      cases h
  · intro ht hk
    by_cases hc : w.block.capacity < 0 ∨ w.block.size < w.block.capacity
    · rw [val_object_key x w ht hk hc] at h
      simp only [Except.ok.injEq] at h
      rw [← h]
    · rw [val_object_key_full x w ht hk hc] at h
      cases h
  · intro ht hk
    rw [val_object_value x w ht hk] at h
    simp only [Except.ok.injEq] at h
    rw [← h]

/-- C11, witness: the first write in the array opened on a fresh writer succeeds and makes a
`writeNextValue` and a `writeValue`. -/
theorem scalar_write_calls_witness :
    val (.int 7)
        { blocks := [{ type := .ROOT, capacity := -1, size := 1, maxLineSize := 0, lineSize := 1,
                       wroteKey := false }]
          block := Block.new .ARRAY (-1) 0
          defaultDataLineSize := 32
          calls := [.writeNextValue true true, .writeOpenArray true (-1) false] }
      = .ok
        { blocks := [{ type := .ROOT, capacity := -1, size := 1, maxLineSize := 0, lineSize := 1,
                       wroteKey := false }]
          block := { type := .ARRAY, capacity := -1, size := 1, maxLineSize := 0, lineSize := 1,
                     wroteKey := false }
          defaultDataLineSize := 32
          calls := [.writeNextValue true true, .writeOpenArray true (-1) false,
            .writeNextValue true true, .writeValue (.int 7) false] } ∧
    [.writeNextValue true true, .writeOpenArray true (-1) false,
        .writeNextValue true true, .writeValue (.int 7) false]
      = [.writeNextValue true true, .writeOpenArray true (-1) false] ++
        [.writeNextValue (decide ((0 : Int) = 0)) (decide ((0 + 1) % 4294967296 > 0)),
          Event.writeValue (.int 7) false] :=
  ⟨by rfl,
   (scalar_write_calls (.int 7)
    { blocks := [{ type := .ROOT, capacity := -1, size := 1, maxLineSize := 0, lineSize := 1,
                   wroteKey := false }]
      block := Block.new .ARRAY (-1) 0
      defaultDataLineSize := 32
      calls := [.writeNextValue true true, .writeOpenArray true (-1) false] }
    { blocks := [{ type := .ROOT, capacity := -1, size := 1, maxLineSize := 0, lineSize := 1,
                   wroteKey := false }]
      block := { type := .ARRAY, capacity := -1, size := 1, maxLineSize := 0, lineSize := 1,
                 wroteKey := false }
      defaultDataLineSize := 32
      calls := [.writeNextValue true true, .writeOpenArray true (-1) false,
        .writeNextValue true true, .writeValue (.int 7) false] }
    (by rfl)).2.1 rfl⟩

/-! ## The saved frames -/

theorem checkKey_blocks (allowKey k : Bool) (w w1 : BaseJSONWriter)
    (h : checkKey allowKey w = .ok (k, w1)) : w1.blocks = w.blocks := by
  unfold checkKey at h
  simp only at h
  split_ifs at h <;>
    · simp only [Except.ok.injEq, Prod.mk.injEq] at h
      rw [← h.2]

theorem openBlock_effect (type : BlockType) (capacity : Int) (lineSize : Nat)
    (w w1 : BaseJSONWriter) (h : openBlock type capacity lineSize w = .ok w1) :
    ∃ w0, recordValue true true w = .ok w0 ∧
      ((type = .OBJECT ∧ w1 =
          { blocks := w0.block :: w0.blocks
            block := Block.new type capacity lineSize
            defaultDataLineSize := w0.defaultDataLineSize
            calls := w0.calls ++ [.writeOpenObject (decide (capacity < 0)) capacity
              (decide (0 ≤ capacity ∧ capacity ≤ (lineSize : Int)))] }) ∨
        (type = .ARRAY ∧ w1 =
          { blocks := w0.block :: w0.blocks
            block := Block.new type capacity lineSize
            defaultDataLineSize := w0.defaultDataLineSize
            calls := w0.calls ++ [.writeOpenArray (decide (capacity < 0)) capacity
              (decide (0 ≤ capacity ∧ capacity ≤ (lineSize : Int)))] })) := by
  unfold openBlock at h
  by_cases c1 : type = .OBJECT ∨ type = .ARRAY
  swap
  · simp [c1] at h
  cases hr : recordValue true true w with
  | error e => simp [c1, hr] at h
  | ok w0 =>
    refine ⟨w0, rfl, ?_⟩
    simp only [c1, hr, not_true_eq_false, if_false] at h
    rcases c1 with c1 | c1
    · left
      subst c1
      simp only [if_true, Except.ok.injEq] at h
      exact ⟨rfl, by rw [← h]; simp [emit, Block.new]⟩
    · right
      subst c1
      simp only [reduceCtorEq, if_false, Except.ok.injEq] at h
      exact ⟨rfl, by rw [← h]; simp [emit, Block.new]⟩

theorem openBlock_blocks (type : BlockType) (capacity : Int) (lineSize : Nat)
    (w w1 : BaseJSONWriter) (h : openBlock type capacity lineSize w = .ok w1) :
    ∃ b, w1.blocks = b :: w.blocks := by
  obtain ⟨w0, h0, h1 | h1⟩ := openBlock_effect type capacity lineSize w w1 h
  · exact ⟨w0.block, by rw [h1.2, ← (recordValue_frame true true w w0 h0).1]⟩
  · exact ⟨w0.block, by rw [h1.2, ← (recordValue_frame true true w w0 h0).1]⟩

theorem closeBlock_effect (w w1 : BaseJSONWriter) (h : closeBlock w = .ok w1) :
    ∃ top rest, w.blocks = top :: rest ∧
      ((w.block.type = .OBJECT ∧ w1 =
          { blocks := rest
            block := top
            defaultDataLineSize := w.defaultDataLineSize
            calls := w.calls ++ [.writeCloseObject (decide (w.block.capacity < 0)) w.block.size
              (decide (0 ≤ w.block.capacity ∧ w.block.capacity ≤ (w.block.maxLineSize : Int)))] }) ∨
        (w.block.type = .ARRAY ∧ w1 =
          { blocks := rest
            block := top
            defaultDataLineSize := w.defaultDataLineSize
            calls := w.calls ++ [.writeCloseArray (decide (w.block.capacity < 0)) w.block.size
              (decide (0 ≤ w.block.capacity ∧ w.block.capacity ≤ (w.block.maxLineSize : Int)))] })) := by
  unfold closeBlock at h
  split_ifs at h with c1 c2 c3 c4 c5
  · cases hb : w.blocks with
    | nil => simp [emit, hb] at h
    | cons top rest =>
      simp only [emit, hb, Except.ok.injEq] at h
      exact ⟨top, rest, rfl, Or.inl ⟨c5, by rw [← h]⟩⟩
  · cases hb : w.blocks with
    | nil => simp [emit, hb] at h
    | cons top rest =>
      simp only [emit, hb, Except.ok.injEq] at h
      have ht : w.block.type = .ARRAY := by
        simp only [not_not] at c4
        rcases c4 with c4 | c4
        · exact absurd c4 c5
        · exact c4
      exact ⟨top, rest, rfl, Or.inr ⟨ht, by rw [← h]⟩⟩

theorem closeBlock_blocks (w w1 : BaseJSONWriter) (h : closeBlock w = .ok w1) :
    w.blocks = w1.block :: w1.blocks := by
  obtain ⟨top, rest, hb, h1 | h1⟩ := closeBlock_effect w w1 h
  · rw [hb, h1.2]
  · rw [hb, h1.2]

theorem val_blocks (v : Scalar) (w w1 : BaseJSONWriter) (h : val v w = .ok w1) :
    w1.blocks = w.blocks := by
  unfold val at h
  cases hr : recordValue true false w with
  | error e => simp [hr] at h
  | ok w2 =>
    simp only [hr, Except.ok.injEq] at h
    rw [← h]
    exact (recordValue_frame true false w w2 hr).1

theorem valLoop_blocks (xs : List Scalar) :
    ∀ w w1 : BaseJSONWriter, valLoop xs w = .ok w1 → w1.blocks = w.blocks := by
  induction xs with
  | nil =>
    intro w w1 h
    simp only [valLoop, Except.ok.injEq] at h
    rw [h]
  | cons x xs ih =>
    intro w w1 h
    unfold valLoop at h
    cases hv : val x w with
    | error e => simp [hv] at h
    | ok w2 =>
      simp only [hv] at h
      rw [ih w2 w1 h, val_blocks x w w2 hv]

theorem arrValues_blocks (values : List Scalar) (lineSize : Nat) (w w1 : BaseJSONWriter)
    (h : arrValues values lineSize w = .ok w1) : w1.blocks = w.blocks := by
  unfold arrValues at h
  cases ha : arr (values.length : Int) lineSize w with
  | error e => simp [ha] at h
  | ok w2 =>
    simp only [ha] at h
    obtain ⟨b, hb⟩ := openBlock_blocks _ _ _ w w2 ha
    cases hl : valLoop values w2 with
    | error e => simp [hl] at h
    | ok w3 =>
      simp only [hl] at h
      have h3 := closeBlock_blocks w3 w1 h
      rw [valLoop_blocks values w2 w3 hl, hb] at h3
      simp only [List.cons.injEq] at h3
      exact h3.2.symm

theorem valuesBuffer_blocks (sink : Sink) (sizeofT : Nat) (values : List Scalar)
    (lineSize : Nat) (w w1 : BaseJSONWriter)
    (h : valuesBuffer sink sizeofT values lineSize w = .ok w1) : w1.blocks = w.blocks := by
  unfold valuesBuffer at h
  simp only at h
  split_ifs at h with c1
  · simp only [Except.ok.injEq] at h
    rw [← h]
    simp [emit]
  · cases hk : checkKey true (emit (.writeOpenData values.length (values.length * sizeofT)) w) with
    | error e => simp [hk] at h
    | ok r =>
      obtain ⟨k, w2⟩ := r
      simp only [hk] at h
      rw [arrValues_blocks values lineSize w2 w1 h, checkKey_blocks true k _ w2 hk]
      simp [emit]

theorem valuesVector_blocks (sink : Sink) (sizeofT : Nat) (values : List Scalar)
    (lineSize : Nat) (w w1 : BaseJSONWriter)
    (h : valuesVector sink sizeofT values lineSize w = .ok w1) : w1.blocks = w.blocks := by
  unfold valuesVector at h
  simp only at h
  split_ifs at h with c1
  · simp only [Except.ok.injEq] at h
    rw [← h]
    simp [emit, dataItemLoop_calls]
  · cases hk : checkKey true (emit (.writeOpenData values.length (values.length * sizeofT)) w) with
    | error e => simp [hk] at h
    | ok r =>
      obtain ⟨k, w2⟩ := r
      simp only [hk] at h
      rw [arrValues_blocks values lineSize w2 w1 h, checkKey_blocks true k _ w2 hk]
      simp [emit]

theorem data_blocks (sink : Sink) (sizeofT : Nat) (v : List Scalar) (lineSize : Nat)
    (w w1 : BaseJSONWriter) (h : data sink sizeofT v lineSize w = .ok w1) :
    w1.blocks = w.blocks := by
  unfold data at h
  cases hr : recordValue false false w with
  | error e => simp [hr] at h
  | ok w2 =>
    simp only [hr] at h
    rw [valuesBuffer_blocks sink sizeofT v _ w2 w1 h, (recordValue_frame false false w w2 hr).1]

theorem step_blocks (sink : Sink) (op : Op) (w w1 : BaseJSONWriter)
    (h : step sink op w = .ok w1) :
    (op.opens = true ∧ ∃ b, w1.blocks = b :: w.blocks) ∨
    (op.closes = true ∧ w.blocks = w1.block :: w1.blocks) ∨
    (op.opens = false ∧ op.closes = false ∧ w1.blocks = w.blocks) := by
  cases op with
  | obj capacity maxLineSize =>
    exact Or.inl ⟨rfl, openBlock_blocks .OBJECT capacity maxLineSize w w1 h⟩
  | arr capacity maxLineSize =>
    exact Or.inl ⟨rfl, openBlock_blocks .ARRAY capacity maxLineSize w w1 h⟩
  | end_ => exact Or.inr (Or.inl ⟨rfl, closeBlock_blocks w w1 h⟩)
  | is =>
    refine Or.inr (Or.inr ⟨rfl, rfl, ?_⟩)
    simp only [step, is] at h
    split_ifs at h
    simp only [Except.ok.injEq] at h
    rw [h]
  | nul =>
    refine Or.inr (Or.inr ⟨rfl, rfl, ?_⟩)
    simp only [step, nul] at h
    cases hr : recordValue false false w with
    | error e => simp [hr] at h
    | ok w2 =>
      simp only [hr, Except.ok.injEq] at h
      rw [← h]
      exact (recordValue_frame false false w w2 hr).1
  | val v => exact Or.inr (Or.inr ⟨rfl, rfl, val_blocks v w w1 h⟩)
  | arrValues values lineSize =>
    exact Or.inr (Or.inr ⟨rfl, rfl, arrValues_blocks values lineSize w w1 h⟩)
  | data sizeofT v lineSize =>
    exact Or.inr (Or.inr ⟨rfl, rfl, data_blocks sink sizeofT v lineSize w w1 h⟩)
  | dataVector sizeofT v lineSize =>
    refine Or.inr (Or.inr ⟨rfl, rfl, ?_⟩)
    simp only [step, dataVector] at h
    cases hr : recordValue false false w with
    | error e => simp [hr] at h
    | ok w2 =>
      simp only [hr] at h
      rw [valuesVector_blocks sink sizeofT v _ w2 w1 h,
        (recordValue_frame false false w w2 hr).1]
  | pair key value =>
    refine Or.inr (Or.inr ⟨rfl, rfl, ?_⟩)
    simp only [step, pair] at h
    cases hv : val key w with
    | error e => simp [hv] at h
    | ok w2 =>
      simp only [hv] at h
      cases hi : is w2 with
      | error e => simp [hi] at h
      | ok w3 =>
        simp only [hi] at h
        have h3 : w3 = w2 := by
          simp only [is] at hi
          split_ifs at hi
          simp only [Except.ok.injEq] at hi
          exact hi.symm
        rw [val_blocks value w3 w1 h, h3, val_blocks key w w2 hv]
  | valCharArray v =>
    refine Or.inr (Or.inr ⟨rfl, rfl, ?_⟩)
    simp only [step, valCharArray] at h
    cases hr : recordValue true false w with
    | error e => simp [hr] at h
    | ok w2 =>
      simp only [hr, Except.ok.injEq] at h
      rw [← h]
      exact (recordValue_frame true false w w2 hr).1
  | valArray sizeofT v =>
    refine Or.inr (Or.inr ⟨rfl, rfl, ?_⟩)
    simp only [step, valArray] at h
    cases hr : recordValue true false w with
    | error e => simp [hr] at h
    | ok w2 =>
      simp only [hr] at h
      cases hk : checkKey true w2 with
      | error e => simp [hk] at h
      | ok r =>
        obtain ⟨k, w3⟩ := r
        simp only [hk] at h
        rw [data_blocks sink sizeofT v _ w3 w1 h, checkKey_blocks true k w2 w3 hk,
          (recordValue_frame true false w w2 hr).1]

theorem run_blocks_count (sink : Sink) (ops : List Op) :
    ∀ w0 w : BaseJSONWriter, run sink ops w0 = .ok w →
      w.blocks.length + closed ops = w0.blocks.length + opened ops := by
  induction ops with
  | nil =>
    intro w0 w h
    simp only [run, Except.ok.injEq] at h
    simp [h, closed, opened]
  | cons op ops ih =>
    intro w0 w h
    unfold run at h
    cases hs : step sink op w0 with
    | error e => simp [hs] at h
    | ok w2 =>
      simp only [hs] at h
      have h2 := ih w2 w h
      rcases step_blocks sink op w0 w2 hs with ⟨ho, b, hb⟩ | ⟨hc, hb⟩ | ⟨ho, hc, hb⟩
      · have hc : op.closes = false := by cases op <;> simp_all [Op.opens, Op.closes]
        simp only [closed, opened, ho, hc, if_true, Bool.false_eq_true, if_false]
        rw [hb] at h2
        simp only [List.length_cons] at h2
        omega
      · have ho : op.opens = false := by cases op <;> simp_all [Op.opens, Op.closes]
        simp only [closed, opened, ho, hc, if_true, Bool.false_eq_true, if_false]
        rw [hb]
        simp only [List.length_cons]
        omega
      · simp only [closed, opened, ho, hc, Bool.false_eq_true, if_false]
        rw [hb] at h2
        omega

/-! ## Balance of a document -/

/-- C12. Balanced documents end at Root and unbalanced ones are caught at disposal.  For every
sequence of public calls on a fresh writer that all succeed, the number of open containers (of
saved frames) plus the number of `end()` calls is the number of `obj`/`arr` calls; when the two
numbers of calls are equal the current frame is Root and no frame is saved; and the destructor
reports "Unclosed object or array" iff at least one container is still open, and passes iff
none is. -/
theorem balanced_documents_end_at_root (sink : Sink) (ops : List Op) (w : BaseJSONWriter)
    (h : run sink ops BaseJSONWriter.new = .ok w) :
    w.blocks.length + closed ops = opened ops ∧
    (opened ops = closed ops → w.block.type = .ROOT ∧ w.blocks = []) ∧
    (dispose w = .error .unclosed ↔ 0 < w.blocks.length) ∧
    (dispose w = .ok () ↔ w.blocks.length = 0) := by
  have hcount := run_blocks_count sink ops BaseJSONWriter.new w h
  simp only [BaseJSONWriter.new, List.length_nil, Nat.zero_add] at hcount
  have hinv := reachable_inv w (reachable_run sink ops BaseJSONWriter.new w Reachable.new h)
  have hroot := stackShape_root w.block w.blocks hinv.1
  have hlen : w.blocks.length = 0 ↔ w.block.type = .ROOT := by
    rw [hroot, List.length_eq_zero]
  refine ⟨hcount, ?_, ?_, ?_⟩
  · intro heq
    have h0 : w.blocks.length = 0 := by omega
    exact ⟨hlen.mp h0, List.length_eq_zero.mp h0⟩
  · rw [Nat.pos_iff_ne_zero, Ne, hlen]
    cases ht : w.block.type <;> simp [dispose, inArray, inObject, ht]
  · rw [hlen]
    cases ht : w.block.type <;> simp [dispose, inArray, inObject, ht]

/-- C12, witness: after `obj()`, a key, `arr()`, `end()` on a fresh writer one container is
open and the destructor reports it. -/
theorem balanced_documents_end_at_root_witness :
    0 < ({ blocks := [{ type := .ROOT, capacity := -1, size := 1, maxLineSize := 0, lineSize := 1,
                        wroteKey := false }]
           block := { type := .OBJECT, capacity := -1, size := 1, maxLineSize := 0, lineSize := 1,
                      wroteKey := false }
           defaultDataLineSize := 32
           calls := [.writeNextValue true true, .writeOpenObject true (-1) false,
             .writeNextValue true true, .writeValue (.int 1) true,
             .writeOpenArray true (-1) false,
             .writeCloseArray true 0 false] } : BaseJSONWriter).blocks.length ∧
    dispose
        { blocks := [{ type := .ROOT, capacity := -1, size := 1, maxLineSize := 0, lineSize := 1,
                       wroteKey := false }]
          block := { type := .OBJECT, capacity := -1, size := 1, maxLineSize := 0, lineSize := 1,
                     wroteKey := false }
          defaultDataLineSize := 32
          calls := [.writeNextValue true true, .writeOpenObject true (-1) false,
            .writeNextValue true true, .writeValue (.int 1) true,
            .writeOpenArray true (-1) false,
            .writeCloseArray true 0 false] } = .error .unclosed :=
  ⟨by decide,
   (balanced_documents_end_at_root Sink.base
    [.obj (-1) 0, .val (.int 1), .arr (-1) 0, .end_]
    { blocks := [{ type := .ROOT, capacity := -1, size := 1, maxLineSize := 0, lineSize := 1,
                   wroteKey := false }]
      block := { type := .OBJECT, capacity := -1, size := 1, maxLineSize := 0, lineSize := 1,
                 wroteKey := false }
      defaultDataLineSize := 32
      calls := [.writeNextValue true true, .writeOpenObject true (-1) false,
        .writeNextValue true true, .writeValue (.int 1) true,
        .writeOpenArray true (-1) false,
        .writeCloseArray true 0 false] }
    (by rfl)).2.2.1.mpr (by decide)⟩

/-! ## The effect of a close -/

/-- C13. Effect of a successful close.  When `end()` succeeds on a frame of kind `K` with
capacity `c`, line size `w` and size `s`, the frame is an Object or an Array, exactly one call is
made, `writeCloseObject` for an Object and `writeCloseArray` for an Array, with
`(c < 0, s, 0 ≤ c ∧ c ≤ w)`; the most recently saved frame becomes current with all its fields
and the deeper saved frames stay as they are.  A saved frame is as it was when the container
was opened: a public call that succeeds leaves the saved frames untouched, pushes one frame on
them or pops the top one. -/
theorem close_restores_saved_frame (w w1 : BaseJSONWriter) (h : end_ w = .ok w1) :
    w.blocks = w1.block :: w1.blocks ∧
    w1.defaultDataLineSize = w.defaultDataLineSize ∧
    ((w.block.type = .OBJECT ∧
        w1.calls = w.calls ++ [.writeCloseObject (decide (w.block.capacity < 0)) w.block.size
          (decide (0 ≤ w.block.capacity ∧ w.block.capacity ≤ (w.block.maxLineSize : Int)))]) ∨
      (w.block.type = .ARRAY ∧
        w1.calls = w.calls ++ [.writeCloseArray (decide (w.block.capacity < 0)) w.block.size
          (decide (0 ≤ w.block.capacity ∧ w.block.capacity ≤ (w.block.maxLineSize : Int)))])) ∧
    (∀ (sink : Sink) (op : Op) (u u1 : BaseJSONWriter), step sink op u = .ok u1 →
      u1.blocks = u.blocks ∨ (∃ b, u1.blocks = b :: u.blocks) ∨
        u.blocks = u1.block :: u1.blocks) := by
  obtain ⟨top, rest, hb, h1 | h1⟩ := closeBlock_effect w w1 h
  · refine ⟨by rw [hb, h1.2], by rw [h1.2], Or.inl ⟨h1.1, by rw [h1.2]⟩, ?_⟩
    intro sink op u u1 hs
    rcases step_blocks sink op u u1 hs with ⟨_, hb⟩ | ⟨_, hb⟩ | ⟨_, _, hb⟩
    · exact Or.inr (Or.inl hb)
    · exact Or.inr (Or.inr hb)
    · exact Or.inl hb
  · refine ⟨by rw [hb, h1.2], by rw [h1.2], Or.inr ⟨h1.1, by rw [h1.2]⟩, ?_⟩
    intro sink op u u1 hs
    rcases step_blocks sink op u u1 hs with ⟨_, hb⟩ | ⟨_, hb⟩ | ⟨_, _, hb⟩
    · exact Or.inr (Or.inl hb)
    · exact Or.inr (Or.inr hb)
    · exact Or.inl hb

/-- C13, witness: `end()` on the filled array of capacity 1 opened inside an object after a key
restores the object frame and reports `writeCloseArray(false, 1, true)`. -/
theorem close_restores_saved_frame_witness :
    end_
        { blocks := [{ type := .OBJECT, capacity := -1, size := 1, maxLineSize := 0,
                       lineSize := 1, wroteKey := false },
                     { type := .ROOT, capacity := -1, size := 1, maxLineSize := 0, lineSize := 1,
                       wroteKey := false }]
          block := { type := .ARRAY, capacity := 1, size := 1, maxLineSize := 4, lineSize := 1,
                     wroteKey := false }
          defaultDataLineSize := 32
          calls := [] }
      = .ok
        { blocks := [{ type := .ROOT, capacity := -1, size := 1, maxLineSize := 0, lineSize := 1,
                       wroteKey := false }]
          block := { type := .OBJECT, capacity := -1, size := 1, maxLineSize := 0,
                     lineSize := 1, wroteKey := false }
          defaultDataLineSize := 32
          calls := [.writeCloseArray false 1 true] } ∧
    [{ type := .OBJECT, capacity := -1, size := 1, maxLineSize := 0, lineSize := 1,
       wroteKey := false },
     { type := .ROOT, capacity := -1, size := 1, maxLineSize := 0, lineSize := 1,
       wroteKey := false }]
      = ({ type := .OBJECT, capacity := -1, size := 1, maxLineSize := 0, lineSize := 1,
           wroteKey := false } : Block) ::
        [{ type := .ROOT, capacity := -1, size := 1, maxLineSize := 0, lineSize := 1,
           wroteKey := false }] :=
  ⟨by rfl,
   (close_restores_saved_frame
    { blocks := [{ type := .OBJECT, capacity := -1, size := 1, maxLineSize := 0,
                   lineSize := 1, wroteKey := false },
                 { type := .ROOT, capacity := -1, size := 1, maxLineSize := 0, lineSize := 1,
                   wroteKey := false }]
      block := { type := .ARRAY, capacity := 1, size := 1, maxLineSize := 4, lineSize := 1,
                 wroteKey := false }
      defaultDataLineSize := 32
      calls := [] }
    { blocks := [{ type := .ROOT, capacity := -1, size := 1, maxLineSize := 0, lineSize := 1,
                   wroteKey := false }]
      block := { type := .OBJECT, capacity := -1, size := 1, maxLineSize := 0,
                 lineSize := 1, wroteKey := false }
      defaultDataLineSize := 32
      calls := [.writeCloseArray false 1 true] }
    (by rfl)).1⟩

/-! ## The line counter -/

theorem lineSizeAfter_succ (maxLineSize : Nat) (count : Nat) :
    ∀ lineSize : Nat, lineSizeAfter maxLineSize lineSize (count + 1)
      = if (lineSizeAfter maxLineSize lineSize count + 1) % 4294967296 > maxLineSize then 1
        else (lineSizeAfter maxLineSize lineSize count + 1) % 4294967296 := by
  induction count with
  | zero => intro lineSize; simp [lineSizeAfter]
  | succ n ih =>
    intro lineSize
    rw [lineSizeAfter, ih]
    simp only [lineSizeAfter]

theorem lineSizeAfter_no_wrap (maxLineSize : Nat) (hmax : maxLineSize < 4294967296)
    (count : Nat) :
    ∀ lineSize : Nat, lineSize + count ≤ maxLineSize →
      lineSizeAfter maxLineSize lineSize count = lineSize + count := by
  induction count with
  | zero => intro lineSize _; simp [lineSizeAfter]
  | succ n ih =>
    intro lineSize h
    have hmod : (lineSize + 1) % 4294967296 = lineSize + 1 := Nat.mod_eq_of_lt (by omega)
    have hle : ¬ (lineSize + 1 > maxLineSize) := by omega
    simp only [lineSizeAfter, hmod, hle, if_false]
    rw [ih (lineSize + 1) (by omega)]
    omega

theorem succ_mod_eq_zero_iff (m l : Nat) (hl : 0 < l) :
    (m + 1) % l = 0 ↔ m % l + 1 = l := by
  have hlt : m % l < l := Nat.mod_lt m hl
  constructor
  · intro h
    by_contra hne
    have h2 : (m % l + 1) % l = m % l + 1 := Nat.mod_eq_of_lt (by omega)
    have h3 : (m + 1) % l = (m % l + 1) % l := (Nat.mod_add_mod m l 1).symm
    omega
  · intro h
    have h3 : (m + 1) % l = (m % l + 1) % l := (Nat.mod_add_mod m l 1).symm
    rw [h3, h, Nat.mod_self]

theorem succ_mod_of_ne (m l : Nat) (hl : 0 < l) (h : m % l + 1 ≠ l) :
    (m + 1) % l = m % l + 1 := by
  have hlt : m % l < l := Nat.mod_lt m hl
  have h3 : (m + 1) % l = (m % l + 1) % l := (Nat.mod_add_mod m l 1).symm
  rw [h3]
  exact Nat.mod_eq_of_lt (by omega)

theorem lineSizeAfter_fresh (maxLineSize : Nat) (hmax : maxLineSize + 1 < 4294967296)
    (m : Nat) :
    lineSizeAfter maxLineSize 0 (m + 1)
      = if maxLineSize = 0 then 1 else m % maxLineSize + 1 := by
  induction m with
  | zero =>
    by_cases h0 : maxLineSize = 0
    · simp [lineSizeAfter, h0]
    · have h1 : ¬ (1 > maxLineSize) := by omega
      simp [lineSizeAfter, h0, h1, Nat.zero_mod]
  | succ m ih =>
    rw [lineSizeAfter_succ, ih]
    by_cases h0 : maxLineSize = 0
    · simp [h0]
    · simp only [h0, if_false]
      have hpos : 0 < maxLineSize := Nat.pos_of_ne_zero h0
      have hlt : m % maxLineSize < maxLineSize := Nat.mod_lt m hpos
      have hmod : (m % maxLineSize + 1 + 1) % 4294967296 = m % maxLineSize + 1 + 1 :=
        Nat.mod_eq_of_lt (by omega)
      rw [hmod]
      by_cases hw : m % maxLineSize + 1 = maxLineSize
      · have hz := (succ_mod_eq_zero_iff m maxLineSize hpos).mpr hw
        have hgt : m % maxLineSize + 1 + 1 > maxLineSize := by omega
        simp [hgt, hz]
      · have hs := succ_mod_of_ne m maxLineSize hpos hw
        have hgt : ¬ (m % maxLineSize + 1 + 1 > maxLineSize) := by omega
        simp [hgt, hs]

theorem newline_of_fresh (maxLineSize : Nat) (hmax : maxLineSize + 1 < 4294967296)
    (k : Nat) :
    ((lineSizeAfter maxLineSize 0 k + 1) % 4294967296 > maxLineSize)
      ↔ (maxLineSize = 0 ∨ (k + 1 > 1 ∧ (k + 1 - 1) % maxLineSize = 0)) := by
  cases k with
  | zero =>
    simp only [lineSizeAfter]
    constructor
    · intro h
      left
      have : (0 + 1) % 4294967296 = 1 := by norm_num
      omega
    · rintro (h | ⟨h, _⟩)
      · subst h
        norm_num
      · omega
  | succ m =>
    rw [lineSizeAfter_fresh maxLineSize hmax m]
    by_cases h0 : maxLineSize = 0
    · subst h0
      norm_num
    · have hpos : 0 < maxLineSize := Nat.pos_of_ne_zero h0
      have hlt : m % maxLineSize < maxLineSize := Nat.mod_lt m hpos
      have hmod : (m % maxLineSize + 1 + 1) % 4294967296 = m % maxLineSize + 1 + 1 :=
        Nat.mod_eq_of_lt (by omega)
      simp only [h0, if_false, hmod, false_or, Nat.add_sub_cancel]
      rw [succ_mod_eq_zero_iff m maxLineSize hpos]
      constructor
      · intro h
        exact ⟨by omega, by omega⟩
      · rintro ⟨_, h⟩
        omega

theorem nextValue_counter (ispair isblock : Bool) (u u1 : BaseJSONWriter)
    (h : nextValue ispair isblock u = .ok u1) (hl : u.block.lineSize + 1 < 4294967296) :
    (u.block.maxLineSize < u.block.lineSize + 1 →
      u1.block.lineSize = 1 ∧
      u1.calls = u.calls ++ [.writeNextValue (decide (u.block.size = 0)) true]) ∧
    (u.block.lineSize + 1 ≤ u.block.maxLineSize →
      u1.block.lineSize = u.block.lineSize + 1 ∧
      u1.calls = u.calls ++ [.writeNextValue (decide (u.block.size = 0)) false]) := by
  have hmod : (u.block.lineSize + 1) % 4294967296 = u.block.lineSize + 1 :=
    Nat.mod_eq_of_lt hl
  unfold nextValue at h
  split_ifs at h
  simp only [Except.ok.injEq, hmod] at h
  rw [← h]
  constructor
  · intro hgt
    have hgt2 : u.block.lineSize + 1 > u.block.maxLineSize := hgt
    simp [emit, hgt2]
  · intro hle
    have hle2 : ¬ (u.block.lineSize + 1 > u.block.maxLineSize) := by omega
    simp [emit, hle2]

/-- C14, counterexample.  In the array opened with line size `4294967295` (the largest
`unsigned int`) on a fresh writer, after `4294967295` values the counter stands at `4294967295`;
the increment of the next write wraps it to `0`, so the write number `4294967296` is reported
with `newline = false`, while `(4294967296 - 1) mod 4294967295 = 0`. -/
theorem line_wrap_counter_overflow :
    ∃ w1 w2 : BaseJSONWriter,
      valLoop (List.replicate 4294967295 (.int 0))
        { blocks := [{ type := .ROOT, capacity := -1, size := 1, maxLineSize := 0, lineSize := 1,
                       wroteKey := false }]
          block := Block.new .ARRAY (-1) 4294967295
          defaultDataLineSize := 32
          calls := [.writeNextValue true true, .writeOpenArray true (-1) false] } = .ok w1 ∧
      val (.int 0) w1 = .ok w2 ∧
      w2.calls = w1.calls ++ [.writeNextValue false false, .writeValue (.int 0) false] ∧
      (4294967295 = 0 ∨ (4294967296 > 1 ∧ (4294967296 - 1) % 4294967295 = 0)) := by
  have hlen : (List.replicate 4294967295 (Scalar.int 0)).length = 4294967295 :=
    List.length_replicate _ _
  generalize List.replicate 4294967295 (Scalar.int 0) = xs at hlen
  have h1 := valLoop_array xs
    { blocks := [{ type := .ROOT, capacity := -1, size := 1, maxLineSize := 0, lineSize := 1,
                   wroteKey := false }]
      block := Block.new .ARRAY (-1) 4294967295
      defaultDataLineSize := 32
      calls := [.writeNextValue true true, .writeOpenArray true (-1) false] }
    (by rfl) (by rfl) (by show (0 : Int) ≤ 0; omega) (Or.inl (by show (-1 : Int) < 0; omega))
  have hline : lineSizeAfter 4294967295 0 xs.length = 4294967295 := by
    rw [hlen, lineSizeAfter_no_wrap 4294967295 (by norm_num) 4294967295 0 (by norm_num)]
  obtain ⟨w1, hw1, hty, hcap, hsz, hls, hmax, hk⟩ : ∃ w1 : BaseJSONWriter,
      valLoop xs
        { blocks := [{ type := .ROOT, capacity := -1, size := 1, maxLineSize := 0, lineSize := 1,
                       wroteKey := false }]
          block := Block.new .ARRAY (-1) 4294967295
          defaultDataLineSize := 32
          calls := [.writeNextValue true true, .writeOpenArray true (-1) false] } = .ok w1 ∧
      w1.block.type = .ARRAY ∧ w1.block.capacity = -1 ∧ w1.block.size = 0 + (xs.length : Int) ∧
      w1.block.lineSize = lineSizeAfter 4294967295 0 xs.length ∧
      w1.block.maxLineSize = 4294967295 ∧ w1.block.wroteKey = false :=
    ⟨_, h1, rfl, rfl, rfl, rfl, rfl, rfl⟩
  have hv := val_array (.int 0) w1 hty (Or.inl (by rw [hcap]; norm_num))
  refine ⟨w1, _, hw1, hv, ?_, Or.inr (by norm_num)⟩
  have hsize : decide (w1.block.size = 0) = false := by
    rw [hsz, hlen, decide_eq_false_iff_not]
    norm_num
  have hflag : decide ((w1.block.lineSize + 1) % 4294967296 > w1.block.maxLineSize) = false := by
    rw [hls, hline, hmax]
    decide
  show w1.calls ++ [Event.writeNextValue (decide (w1.block.size = 0))
      (decide ((w1.block.lineSize + 1) % 4294967296 > w1.block.maxLineSize)),
      Event.writeValue (.int 0) w1.block.wroteKey]
    = w1.calls ++ [Event.writeNextValue false false, Event.writeValue (.int 0) false]
  rw [hsize, hflag, hk]

/-- C14, amended.  The counter is a 32-bit unsigned integer: a counted value increments it, and
when it then exceeds the line size it is set to 1 and the write is reported with
`newline = true`, otherwise with `newline = false`.  Hence for every line size `w` with
`w + 1 < 2 ^ 32` and every `n ≥ 1` (here `n` is `xs.length + 1`), the `n`-th value written
directly in a freshly opened unbounded Array succeeds and is reported with `newline = true` iff
`w = 0`, or `n > 1` and `(n - 1) mod w = 0`, and with `first = true` iff `n = 1`. -/
theorem line_wrap_counter (lineSize : Nat) (capacity : Int) (xs : List Scalar) (x : Scalar)
    (w : BaseJSONWriter) (hl : lineSize + 1 < 4294967296) (hc : capacity < 0)
    (hb : w.block = Block.new .ARRAY capacity lineSize) :
    (∃ w1 w2 : BaseJSONWriter, valLoop xs w = .ok w1 ∧ val x w1 = .ok w2 ∧
      w2.calls = w1.calls ++
        [.writeNextValue (decide (xs.length + 1 = 1))
            (decide (lineSize = 0 ∨ (xs.length + 1 > 1 ∧ (xs.length + 1 - 1) % lineSize = 0))),
          .writeValue x false]) ∧
    (∀ (ispair isblock : Bool) (u u1 : BaseJSONWriter),
      nextValue ispair isblock u = .ok u1 → u.block.lineSize + 1 < 4294967296 →
      (u.block.maxLineSize < u.block.lineSize + 1 →
        u1.block.lineSize = 1 ∧
        u1.calls = u.calls ++ [.writeNextValue (decide (u.block.size = 0)) true]) ∧
      (u.block.lineSize + 1 ≤ u.block.maxLineSize →
        u1.block.lineSize = u.block.lineSize + 1 ∧
        u1.calls = u.calls ++ [.writeNextValue (decide (u.block.size = 0)) false])) := by
  refine ⟨?_, fun ispair isblock u u1 h hlt => nextValue_counter ispair isblock u u1 h hlt⟩
  have h1 := valLoop_array xs w (by rw [hb]; rfl) (by rw [hb]; rfl)
    (by rw [hb]; show (0 : Int) ≤ 0; omega) (Or.inl (by rw [hb]; exact hc))
  refine ⟨_, _, h1, val_array x _ (by rw [hb]; rfl) (Or.inl (by rw [hb]; exact hc)), ?_⟩
  have hfirst : decide ((0 : Int) + (xs.length : Int) = 0) = decide (xs.length + 1 = 1) := by
    rw [decide_eq_decide]
    omega
  have hnew := newline_of_fresh lineSize hl xs.length
  simp only [hb, Block.new, hfirst, decide_eq_decide.mpr hnew]

/-- C14, witness: with line size 3, the fourth and the seventh value written in a fresh
unbounded array are reported with `newline = true`, the fifth with `newline = false`. -/
theorem line_wrap_counter_witness :
    (∃ w1 w2 : BaseJSONWriter,
      valLoop [.int 1, .int 2, .int 3]
        { blocks := [{ type := .ROOT, capacity := -1, size := 1, maxLineSize := 0, lineSize := 1,
                       wroteKey := false }]
          block := Block.new .ARRAY (-1) 3
          defaultDataLineSize := 32
          calls := [] } = .ok w1 ∧
      val (.int 4) w1 = .ok w2 ∧
      w2.calls = w1.calls ++ [.writeNextValue false true, .writeValue (.int 4) false]) ∧
    (∃ w1 w2 : BaseJSONWriter,
      valLoop [.int 1, .int 2, .int 3, .int 4]
        { blocks := [{ type := .ROOT, capacity := -1, size := 1, maxLineSize := 0, lineSize := 1,
                       wroteKey := false }]
          block := Block.new .ARRAY (-1) 3
          defaultDataLineSize := 32
          calls := [] } = .ok w1 ∧
      val (.int 5) w1 = .ok w2 ∧
      w2.calls = w1.calls ++ [.writeNextValue false false, .writeValue (.int 5) false]) ∧
    (∃ w1 w2 : BaseJSONWriter,
      valLoop [.int 1, .int 2, .int 3, .int 4, .int 5, .int 6]
        { blocks := [{ type := .ROOT, capacity := -1, size := 1, maxLineSize := 0, lineSize := 1,
                       wroteKey := false }]
          block := Block.new .ARRAY (-1) 3
          defaultDataLineSize := 32
          calls := [] } = .ok w1 ∧
      val (.int 7) w1 = .ok w2 ∧
      w2.calls = w1.calls ++ [.writeNextValue false true, .writeValue (.int 7) false]) :=
  ⟨(line_wrap_counter 3 (-1) [.int 1, .int 2, .int 3] (.int 4) _ (by decide) (by decide)
      rfl).1,
   (line_wrap_counter 3 (-1) [.int 1, .int 2, .int 3, .int 4] (.int 5) _ (by decide)
      (by decide) rfl).1,
   (line_wrap_counter 3 (-1) [.int 1, .int 2, .int 3, .int 4, .int 5, .int 6] (.int 7) _
      (by decide) (by decide) rfl).1⟩

/-! ## Character buffers -/

/-- C15. A fixed-length character buffer is always text.  For every character buffer, the empty
one included, and every state, `val(buffer)` is the scalar write of the buffer as text: it fails
or succeeds as `val` of that text does and leaves the same writer, whatever the sink answers to
`writeOpenData`.  When it succeeds no frame is pushed and the calls it makes are the one
`writeNextValue` of the frame accounting (none in the value position of an Object) and the one
`writeValue` of the text with the key flag of the frame; there is no `writeOpenData`,
`writeDataItem`, `writeCloseData`, `writeOpenArray` or `writeCloseArray` among them. -/
theorem char_buffer_is_text (sink1 sink2 : Sink) (v : String) (w : BaseJSONWriter) :
    valCharArray v w = val (.str v) w ∧
    step sink1 (.valCharArray v) w = step sink2 (.valCharArray v) w ∧
    (∀ w1, valCharArray v w = .ok w1 →
      w1.blocks = w.blocks ∧
      (w1.calls = w.calls ++ [.writeValue (.str v) w1.block.wroteKey] ∨
        w1.calls = w.calls ++
          [.writeNextValue (decide (w.block.size = 0))
              (decide ((w.block.lineSize + 1) % 4294967296 > w.block.maxLineSize)),
            .writeValue (.str v) w1.block.wroteKey])) := by
  refine ⟨rfl, rfl, ?_⟩
  intro w1 h
  unfold valCharArray at h
  cases hr : recordValue true false w with
  | error e => simp [hr] at h
  | ok w0 =>
    simp only [hr, Except.ok.injEq] at h
    obtain ⟨hb, _, hc⟩ := recordValue_frame true false w w0 hr
    rw [← h]
    refine ⟨hb, ?_⟩
    rcases hc with hc | hc
    · left
      simp [emit, hc]
    · right
      simp [emit, hc, Block.separator]

/-- C15, witness: the empty buffer written in the array opened on a fresh writer makes a
`writeNextValue` and the `writeValue` of the empty text. -/
theorem char_buffer_is_text_witness :
    valCharArray ""
        { blocks := [{ type := .ROOT, capacity := -1, size := 1, maxLineSize := 0, lineSize := 1,
                       wroteKey := false }]
          block := Block.new .ARRAY (-1) 0
          defaultDataLineSize := 32
          calls := [.writeNextValue true true, .writeOpenArray true (-1) false] }
      = val (Scalar.str "")
        { blocks := [{ type := .ROOT, capacity := -1, size := 1, maxLineSize := 0, lineSize := 1,
                       wroteKey := false }]
          block := Block.new .ARRAY (-1) 0
          defaultDataLineSize := 32
          calls := [.writeNextValue true true, .writeOpenArray true (-1) false] } :=
  (char_buffer_is_text Sink.base Sink.accepting ""
    { blocks := [{ type := .ROOT, capacity := -1, size := 1, maxLineSize := 0, lineSize := 1,
                   wroteKey := false }]
      block := Block.new .ARRAY (-1) 0
      defaultDataLineSize := 32
      calls := [.writeNextValue true true, .writeOpenArray true (-1) false] }).1

/-! ## Null writes -/

theorem recordValue_value_slot (w : BaseJSONWriter) (hinv : Inv w)
    (hf : w.block.type = .ARRAY ∨ (w.block.type = .OBJECT ∧ w.block.wroteKey = true)) :
    recordValue true false w = recordValue false false w ∧
    ∀ w0, recordValue false false w = .ok w0 → w0.block.wroteKey = false := by
  rcases hf with ht | ⟨ht, hk⟩
  · have hne : w.block.type ≠ .OBJECT := by simp [ht]
    have hk : w.block.wroteKey = false := by
      by_contra hk
      have := (hinv.2 _ (List.mem_cons_self _ _)).2.2.2 (by simpa using hk)
      exact hne this
    refine ⟨by rw [recordValue_not_object w true false hne,
      recordValue_not_object w false false hne], ?_⟩
    intro w0 h0
    rw [recordValue_not_object w false false hne] at h0
    by_cases hc : w.block.capacity < 0 ∨ w.block.size < w.block.capacity
    · rw [nextValue_array false w ht hc] at h0
      simp only [Except.ok.injEq] at h0
      rw [← h0]
      simpa [Block.next] using hk
    · rw [nextValue_array_full false w ht hc] at h0
      cases h0
  · refine ⟨by rw [recordValue_value w true false ht hk,
      recordValue_value w false false ht hk], ?_⟩
    intro w0 h0
    rw [recordValue_value w false false ht hk] at h0
    simp only [Except.ok.injEq] at h0
    rw [← h0]

/-- C16. A null write is accounted exactly like any other value.  In every state of a writer
whose current frame is an Array or an Object with an outstanding key, for every scalar `x`:
`nul()` succeeds iff `val(x)` succeeds, and they fail with the same violation; when they succeed
they leave the same current frame (size, key phase, line counter), the same saved frames and
the same calls up to the last one, which is `writeNull()` for `nul` and `writeValue(x, false)`
for `val`; the calls before it are those made so far with at most the one `writeNextValue` of
the frame. -/
theorem null_write_accounting (x : Scalar) (w : BaseJSONWriter) (h : Reachable w)
    (hf : w.block.type = .ARRAY ∨ (w.block.type = .OBJECT ∧ w.block.wroteKey = true)) :
    ((∃ w1, nul w = .ok w1) ↔ (∃ w2, val x w = .ok w2)) ∧
    (∀ e, nul w = .error e ↔ val x w = .error e) ∧
    (∀ w1 w2, nul w = .ok w1 → val x w = .ok w2 →
      w1.block = w2.block ∧ w1.blocks = w2.blocks ∧
      w1.defaultDataLineSize = w2.defaultDataLineSize ∧
      ∃ pre, w1.calls = pre ++ [.writeNull] ∧ w2.calls = pre ++ [.writeValue x false] ∧
        (pre = w.calls ∨ pre = w.calls ++ [w.block.separator])) := by
  obtain ⟨hrec, hkey⟩ := recordValue_value_slot w (reachable_inv w h) hf
  unfold nul val
  rw [hrec]
  cases hr : recordValue false false w with
  | error e => simp
  | ok w0 =>
    have hk := hkey w0 hr
    obtain ⟨_, _, hc⟩ := recordValue_frame false false w w0 hr
    refine ⟨by simp, by simp, ?_⟩
    intro w1 w2 h1 h2
    simp only [Except.ok.injEq] at h1 h2
    rw [← h1, ← h2]
    refine ⟨rfl, rfl, rfl, w0.calls, rfl, ?_, hc⟩
    simp [emit, hk]

/-- C16, witness: in the array opened on a fresh writer `nul()` and `val(7)` both succeed and
leave the same frame. -/
theorem null_write_accounting_witness :
    (∃ w1, nul
        { blocks := [{ type := .ROOT, capacity := -1, size := 1, maxLineSize := 0, lineSize := 1,
                       wroteKey := false }]
          block := Block.new .ARRAY (-1) 0
          defaultDataLineSize := 32
          calls := [.writeNextValue true true, .writeOpenArray true (-1) false] } = .ok w1) ↔
    (∃ w2, val (.int 7)
        { blocks := [{ type := .ROOT, capacity := -1, size := 1, maxLineSize := 0, lineSize := 1,
                       wroteKey := false }]
          block := Block.new .ARRAY (-1) 0
          defaultDataLineSize := 32
          calls := [.writeNextValue true true, .writeOpenArray true (-1) false] } = .ok w2) :=
  (null_write_accounting (.int 7)
    { blocks := [{ type := .ROOT, capacity := -1, size := 1, maxLineSize := 0, lineSize := 1,
                   wroteKey := false }]
      block := Block.new .ARRAY (-1) 0
      defaultDataLineSize := 32
      calls := [.writeNextValue true true, .writeOpenArray true (-1) false] }
    (reachable_run Sink.base [.arr (-1) 0] BaseJSONWriter.new _ Reachable.new (by rfl))
    (Or.inl rfl)).1

/-! ## Key/value pairs -/

theorem is_after_key (w : BaseJSONWriter) (ht : w.block.type = .OBJECT)
    (hk : w.block.wroteKey = true) : is w = .ok w := by
  simp [is, inObject, ht, hk]

theorem is_without_key (w : BaseJSONWriter)
    (h : w.block.type ≠ .OBJECT ∨ w.block.wroteKey = false) : is w = .error .noKeyToAssign := by
  rcases h with h | h
  · have hb : (w.block.type == BlockType.OBJECT) = false := by simpa using h
    simp [is, inObject, hb]
  · simp [is, h]

/-- C17. The call `pair(key, value)` is key-then-value and nothing more.  For all scalars it
succeeds iff the current frame is an Object awaiting a key with room for one more entry; it
fails in an Array and in an Object with an outstanding key (with "No key written to assign", or
"Block capacity exceeded" in a full Array) and under Root.  When it succeeds it is `val(key)`,
an `is()` that returns the writer as it is, and `val(value)`: the size grows by one, no key is
outstanding, and the calls are one `writeNextValue`, `writeValue(key, true)` and
`writeValue(value, false)`. -/
theorem pair_is_key_then_value (key value : Scalar) (w : BaseJSONWriter) :
    ((∃ w2, pair key value w = .ok w2) ↔
      (w.block.type = .OBJECT ∧ w.block.wroteKey = false ∧
        (w.block.capacity < 0 ∨ w.block.size < w.block.capacity))) ∧
    (w.block.type = .ARRAY →
      pair key value w = .error .noKeyToAssign ∨ pair key value w = .error .capacityExceeded) ∧
    (w.block.type = .ROOT → pair key value w = .error .mustStartWithBlock) ∧
    (w.block.type = .OBJECT → w.block.wroteKey = true →
      pair key value w = .error .noKeyToAssign) ∧
    (∀ w2, pair key value w = .ok w2 →
      ∃ w1, val key w = .ok w1 ∧ is w1 = .ok w1 ∧ val value w1 = .ok w2 ∧
        w2 =
          { w with
            block := { w.block with
              size := w.block.size + 1
              lineSize := if (w.block.lineSize + 1) % 4294967296 > w.block.maxLineSize then 1
                else (w.block.lineSize + 1) % 4294967296
              wroteKey := false }
            calls := w.calls ++
              [.writeNextValue (decide (w.block.size = 0))
                  (decide ((w.block.lineSize + 1) % 4294967296 > w.block.maxLineSize)),
                .writeValue key true, .writeValue value false] }) := by
  have harr : w.block.type = .ARRAY →
      pair key value w = .error .noKeyToAssign ∨ pair key value w = .error .capacityExceeded := by
    intro ht
    by_cases hc : w.block.capacity < 0 ∨ w.block.size < w.block.capacity
    · left
      rw [pair, val_array key w ht hc]
      simp only
      rw [is_without_key _ (Or.inl (by simp [ht]))]
    · right
      rw [pair, val_array_full key w ht hc]
  have hroot : w.block.type = .ROOT → pair key value w = .error .mustStartWithBlock := by
    intro ht
    simp [pair, val, recordValue_root true w ht]
  have hval : w.block.type = .OBJECT → w.block.wroteKey = true →
      pair key value w = .error .noKeyToAssign := by
    intro ht hk
    rw [pair, val_object_value key w ht hk]
    simp only
    rw [is_without_key _ (Or.inr rfl)]
  have hfull : w.block.type = .OBJECT → w.block.wroteKey = false →
      ¬ (w.block.capacity < 0 ∨ w.block.size < w.block.capacity) →
      pair key value w = .error .capacityExceeded := by
    intro ht hk hc
    rw [pair, val_object_key_full key w ht hk hc]
  have hok : w.block.type = .OBJECT → w.block.wroteKey = false →
      (w.block.capacity < 0 ∨ w.block.size < w.block.capacity) →
      ∃ w1, val key w = .ok w1 ∧ is w1 = .ok w1 ∧
        val value w1 = .ok
          { w with
            block := { w.block with
              size := w.block.size + 1
              lineSize := if (w.block.lineSize + 1) % 4294967296 > w.block.maxLineSize then 1
                else (w.block.lineSize + 1) % 4294967296
              wroteKey := false }
            calls := w.calls ++
              [.writeNextValue (decide (w.block.size = 0))
                  (decide ((w.block.lineSize + 1) % 4294967296 > w.block.maxLineSize)),
                .writeValue key true, .writeValue value false] } := by
    intro ht hk hc
    refine ⟨_, val_object_key key w ht hk hc, is_after_key _ (by exact ht) (by rfl), ?_⟩
    rw [val_object_value value _ (by exact ht) (by rfl)]
    simp
  have hcases : ∀ w2, pair key value w = .ok w2 →
      w.block.type = .OBJECT ∧ w.block.wroteKey = false ∧
        (w.block.capacity < 0 ∨ w.block.size < w.block.capacity) := by
    intro w2 h2
    cases ht : w.block.type with
    | ROOT => rw [hroot ht] at h2; cases h2
    | ARRAY =>
      rcases harr ht with h | h <;>
        · rw [h] at h2
          cases h2
    | OBJECT =>
      cases hk : w.block.wroteKey with
      | true => rw [hval ht hk] at h2; cases h2
      | false =>
        refine ⟨rfl, rfl, ?_⟩
        by_contra hc
        rw [hfull ht hk hc] at h2
        cases h2
  refine ⟨⟨fun ⟨w2, h2⟩ => hcases w2 h2, ?_⟩, harr, hroot, hval, ?_⟩
  · rintro ⟨ht, hk, hc⟩
    obtain ⟨w1, h1, h2, h3⟩ := hok ht hk hc
    exact ⟨_, by rw [pair, h1]; simp only; rw [h2]; simp only; exact h3⟩
  · intro w2 hp
    obtain ⟨ht, hk, hc⟩ := hcases w2 hp
    obtain ⟨w1, h1, h2, h3⟩ := hok ht hk hc
    refine ⟨w1, h1, h2, ?_⟩
    have h4 : pair key value w = val value w1 := by
      rw [pair, h1]
      simp only
      rw [h2]
    rw [h4] at hp
    rw [hp] at h3
    simp only [Except.ok.injEq] at h3
    exact ⟨hp, h3⟩

/-- C17, witness: in the object opened on a fresh writer `pair(1, 2)` succeeds. -/
theorem pair_is_key_then_value_witness :
    ∃ w2, pair (.int 1) (.int 2)
        { blocks := [{ type := .ROOT, capacity := -1, size := 1, maxLineSize := 0, lineSize := 1,
                       wroteKey := false }]
          block := Block.new .OBJECT (-1) 0
          defaultDataLineSize := 32
          calls := [.writeNextValue true true, .writeOpenObject true (-1) false] } = .ok w2 :=
  (pair_is_key_then_value (.int 1) (.int 2)
    { blocks := [{ type := .ROOT, capacity := -1, size := 1, maxLineSize := 0, lineSize := 1,
                   wroteKey := false }]
      block := Block.new .OBJECT (-1) 0
      defaultDataLineSize := 32
      calls := [.writeNextValue true true, .writeOpenObject true (-1) false] }).1.mpr
    ⟨rfl, rfl, Or.inl (by decide)⟩

/-! ## The open signal -/

/-- C18. Open signal.  Every successful `obj(c, w)` and `arr(c, w)` makes, after at most the one
`writeNextValue` of the enclosing frame, exactly one open call of its kind, `writeOpenObject`
for `obj` and `writeOpenArray` for `arr`, with `(c < 0, c, 0 ≤ c ∧ c ≤ w)`; it pushes one frame
and makes current a new frame of that kind with capacity `c`, line size `w`, size 0, line
counter 0 and no outstanding key.  An unbounded container is never reported inline and a
declared-empty one always is. -/
theorem open_signal (capacity : Int) (lineSize : Nat) (w w1 : BaseJSONWriter) :
    (obj capacity lineSize w = .ok w1 →
      w1.block = { type := .OBJECT, capacity := capacity, size := 0, maxLineSize := lineSize,
                   lineSize := 0, wroteKey := false } ∧
      (∃ b, w1.blocks = b :: w.blocks) ∧
      ∃ pre, w1.calls = pre ++ [.writeOpenObject (decide (capacity < 0)) capacity
          (decide (0 ≤ capacity ∧ capacity ≤ (lineSize : Int)))] ∧
        (pre = w.calls ∨ pre = w.calls ++ [w.block.separator])) ∧
    (arr capacity lineSize w = .ok w1 →
      w1.block = { type := .ARRAY, capacity := capacity, size := 0, maxLineSize := lineSize,
                   lineSize := 0, wroteKey := false } ∧
      (∃ b, w1.blocks = b :: w.blocks) ∧
      ∃ pre, w1.calls = pre ++ [.writeOpenArray (decide (capacity < 0)) capacity
          (decide (0 ≤ capacity ∧ capacity ≤ (lineSize : Int)))] ∧
        (pre = w.calls ∨ pre = w.calls ++ [w.block.separator])) ∧
    (capacity < 0 → decide (0 ≤ capacity ∧ capacity ≤ (lineSize : Int)) = false) ∧
    (capacity = 0 → decide (0 ≤ capacity ∧ capacity ≤ (lineSize : Int)) = true) := by
  refine ⟨?_, ?_, ?_, ?_⟩
  · intro h
    obtain ⟨w0, h0, h1 | h1⟩ := openBlock_effect .OBJECT capacity lineSize w w1 h
    · obtain ⟨hb, _, hc⟩ := recordValue_frame true true w w0 h0
      rw [h1.2]
      exact ⟨rfl, ⟨w0.block, by rw [hb]⟩, w0.calls, rfl, hc⟩
    · exact absurd h1.1 (by simp)
  · intro h
    obtain ⟨w0, h0, h1 | h1⟩ := openBlock_effect .ARRAY capacity lineSize w w1 h
    · exact absurd h1.1 (by simp)
    · obtain ⟨hb, _, hc⟩ := recordValue_frame true true w w0 h0
      rw [h1.2]
      exact ⟨rfl, ⟨w0.block, by rw [hb]⟩, w0.calls, rfl, hc⟩
  · intro hc
    rw [decide_eq_false_iff_not]
    omega
  · intro hc
    rw [decide_eq_true_iff]
    omega

/-- C18, witness: `arr(0, 0)` on a fresh writer succeeds, reports
`writeOpenArray(false, 0, true)`, makes an empty array frame current and pushes the root. -/
theorem open_signal_witness :
    arr 0 0 BaseJSONWriter.new = .ok
      { blocks := [{ type := .ROOT, capacity := -1, size := 1, maxLineSize := 0, lineSize := 1,
                     wroteKey := false }]
        block := { type := .ARRAY, capacity := 0, size := 0, maxLineSize := 0, lineSize := 0,
                   wroteKey := false }
        defaultDataLineSize := 32
        calls := [.writeNextValue true true, .writeOpenArray false 0 true] } ∧
    ∃ b : Block,
      [{ type := .ROOT, capacity := -1, size := 1, maxLineSize := 0, lineSize := 1,
         wroteKey := false }] = b :: BaseJSONWriter.new.blocks :=
  ⟨by rfl,
   ((open_signal 0 0 BaseJSONWriter.new
    { blocks := [{ type := .ROOT, capacity := -1, size := 1, maxLineSize := 0, lineSize := 1,
                   wroteKey := false }]
      block := { type := .ARRAY, capacity := 0, size := 0, maxLineSize := 0, lineSize := 0,
                 wroteKey := false }
      defaultDataLineSize := 32
      calls := [.writeNextValue true true, .writeOpenArray false 0 true] }).2.1 (by rfl)).2.1⟩

/-! ## The invariants of the stack -/

theorem frames_of_stackShape (rest : List Block) :
    ∀ b : Block, stackShape b rest = true →
      ∃ root others, rest.reverse ++ [b] = root :: others ∧ root.type = .ROOT ∧
        ∀ x ∈ others, x.type = .OBJECT ∨ x.type = .ARRAY := by
  induction rest with
  | nil =>
    intro b h
    exact ⟨b, [], rfl, by simpa [stackShape] using h, by simp⟩
  | cons p rest ih =>
    intro b h
    simp only [stackShape, Bool.and_eq_true, bne_iff_ne, ne_eq] at h
    obtain ⟨root, others, h1, h2, h3⟩ := ih p h.2
    refine ⟨root, others ++ [b], ?_, h2, ?_⟩
    · rw [List.reverse_cons, h1]
      rfl
    · intro x hx
      rcases List.mem_append.mp hx with hx | hx
      · exact h3 x hx
      · have hxb : x = b := by simpa using hx
        subst hxb
        cases ht : x.type with
        | ROOT => exact absurd ht h.1
        | OBJECT => exact Or.inl rfl
        | ARRAY => exact Or.inr rfl

/-- C19. Stack-shape invariant.  In every state reachable from a fresh writer by successful
calls, the frame sequence (saved frames, oldest first, followed by the current frame) is
non-empty, its bottom frame has kind Root and every other frame has kind Object or Array; and
the current frame is Root iff no frame is saved. -/
theorem stack_shape_invariant (w : BaseJSONWriter) (h : Reachable w) :
    frames w ≠ [] ∧
    (∃ root others, frames w = root :: others ∧ root.type = .ROOT ∧
      ∀ x ∈ others, x.type = .OBJECT ∨ x.type = .ARRAY) ∧
    (w.block.type = .ROOT ↔ w.blocks = []) := by
  have hinv := reachable_inv w h
  refine ⟨by simp [frames], ?_, stackShape_root w.block w.blocks hinv.1⟩
  exact frames_of_stackShape w.blocks w.block hinv.1

/-- C19, witness: after `obj()`, a key and `arr()` on a fresh writer the frames are Root,
Object, Array. -/
theorem stack_shape_invariant_witness :
    ∃ root others,
      frames
        { blocks := [{ type := .OBJECT, capacity := -1, size := 1, maxLineSize := 0,
                       lineSize := 1, wroteKey := false },
                     { type := .ROOT, capacity := -1, size := 1, maxLineSize := 0, lineSize := 1,
                       wroteKey := false }]
          block := Block.new .ARRAY (-1) 0
          defaultDataLineSize := 32
          calls := [.writeNextValue true true, .writeOpenObject true (-1) false,
            .writeNextValue true true, .writeValue (.int 1) true,
            .writeOpenArray true (-1) false] } = root :: others ∧
      root.type = .ROOT ∧ ∀ x ∈ others, x.type = .OBJECT ∨ x.type = .ARRAY :=
  (stack_shape_invariant
    { blocks := [{ type := .OBJECT, capacity := -1, size := 1, maxLineSize := 0,
                   lineSize := 1, wroteKey := false },
                 { type := .ROOT, capacity := -1, size := 1, maxLineSize := 0, lineSize := 1,
                   wroteKey := false }]
      block := Block.new .ARRAY (-1) 0
      defaultDataLineSize := 32
      calls := [.writeNextValue true true, .writeOpenObject true (-1) false,
        .writeNextValue true true, .writeValue (.int 1) true,
        .writeOpenArray true (-1) false] }
    (reachable_run Sink.base [.obj (-1) 0, .val (.int 1), .arr (-1) 0] BaseJSONWriter.new _
      Reachable.new (by rfl))).2.1

/-- C20. Capacity invariant.  In every state reachable from a fresh writer by successful calls
(`obj`, `arr`, `end`, `val`, `nul`, `data`, `pair` and the others, with any capacities and any
answers of the sink), every frame, current or saved, whose capacity is declared (`c ≥ 0`) has
`0 ≤ size ≤ c`. -/
theorem capacity_invariant (w : BaseJSONWriter) (h : Reachable w) :
    ∀ b ∈ frames w, 0 ≤ b.capacity → 0 ≤ b.size ∧ b.size ≤ b.capacity := by
  have hinv := reachable_inv w h
  intro b hb hc
  have hmem : b ∈ w.block :: w.blocks := by
    simp only [frames, List.mem_append, List.mem_reverse, List.mem_singleton] at hb
    rcases hb with hb | hb
    · exact List.mem_cons_of_mem _ hb
    · rw [hb]
      exact List.mem_cons_self _ _
  have hwf := hinv.2 b hmem
  exact ⟨hwf.2.1, hwf.2.2.1 hc⟩

/-- C20, witness: after `arr(2)` and one value on a fresh writer the array frame has size 1 of
capacity 2. -/
theorem capacity_invariant_witness :
    0 ≤ ({ type := .ARRAY, capacity := 2, size := 1, maxLineSize := 0, lineSize := 1,
           wroteKey := false } : Block).size ∧
    ({ type := .ARRAY, capacity := 2, size := 1, maxLineSize := 0, lineSize := 1,
       wroteKey := false } : Block).size
      ≤ ({ type := .ARRAY, capacity := 2, size := 1, maxLineSize := 0, lineSize := 1,
           wroteKey := false } : Block).capacity :=
  capacity_invariant
    { blocks := [{ type := .ROOT, capacity := -1, size := 1, maxLineSize := 0, lineSize := 1,
                   wroteKey := false }]
      block := { type := .ARRAY, capacity := 2, size := 1, maxLineSize := 0, lineSize := 1,
                 wroteKey := false }
      defaultDataLineSize := 32
      calls := [.writeNextValue true true, .writeOpenArray false 2 false,
        .writeNextValue true true, .writeValue (.int 1) false] }
    (reachable_run Sink.base [.arr 2 0, .val (.int 1)] BaseJSONWriter.new _
      Reachable.new (by rfl))
    { type := .ARRAY, capacity := 2, size := 1, maxLineSize := 0, lineSize := 1,
      wroteKey := false }
    (by simp [frames]) (by decide)

/-! ## Buffers of scalars written through `val` -/

theorem valArray_array (sink : Sink) (sizeofT : Nat) (v : List Scalar) (w : BaseJSONWriter)
    (ht : w.block.type = .ARRAY)
    (hc : w.block.capacity < 0 ∨ w.block.size < w.block.capacity) :
    valArray sink sizeofT v w
      = data sink sizeofT v useDefaultSize
        { w with block := w.block.next, calls := w.calls ++ [w.block.separator] } := by
  have hne : w.block.type ≠ .OBJECT := by simp [ht]
  rw [valArray, recordValue_not_object w true false hne, nextValue_array false w ht hc]
  simp only
  rw [checkKey_not_object true _ (by simp [Block.next, ht])]

theorem valArray_array_full (sink : Sink) (sizeofT : Nat) (v : List Scalar)
    (w : BaseJSONWriter) (ht : w.block.type = .ARRAY)
    (hc : ¬ (w.block.capacity < 0 ∨ w.block.size < w.block.capacity)) :
    valArray sink sizeofT v w = .error .capacityExceeded := by
  have hne : w.block.type ≠ .OBJECT := by simp [ht]
  rw [valArray, recordValue_not_object w true false hne, nextValue_array_full false w ht hc]

theorem valArray_object_value (sink : Sink) (sizeofT : Nat) (v : List Scalar)
    (w : BaseJSONWriter) (ht : w.block.type = .OBJECT) (hk : w.block.wroteKey = true) :
    valArray sink sizeofT v w = data sink sizeofT v useDefaultSize w := by
  rw [valArray, recordValue_value w true false ht hk]
  simp only
  rw [checkKey_object _ (by exact ht)]
  simp only [Bool.not_false]
  have hw : ({ w with block := { w.block with wroteKey := true } } : BaseJSONWriter) = w := by
    cases w with
    | mk blocks block d calls =>
      cases block with
      | mk type capacity size maxLineSize lineSize wroteKey =>
        simp only at hk
        simp [hk]
  rw [hw]

/-- C21, the code at the failing input.  In the array opened by `arr()` on a fresh writer,
`val` of a buffer of three integers with an accepting sink leaves the enclosing array with size
`2` after two `writeNextValue` calls, where `data` of the same buffer leaves size `1` after one;
with the sink of the base class, which declines, `val` of the buffer leaves size `3` after three
`writeNextValue` calls for the enclosing array.  In an array of capacity `1` the write fails
with "Block capacity exceeded". -/
theorem buffer_val_takes_two_slots :
    run Sink.accepting [.arr (-1) 0, .valArray 4 [.int 1, .int 2, .int 3]]
        BaseJSONWriter.new = .ok
      { blocks := [{ type := .ROOT, capacity := -1, size := 1, maxLineSize := 0, lineSize := 1,
                     wroteKey := false }]
        block := { type := .ARRAY, capacity := -1, size := 2, maxLineSize := 0, lineSize := 1,
                   wroteKey := false }
        defaultDataLineSize := 32
        calls := [.writeNextValue true true, .writeOpenArray true (-1) false,
          .writeNextValue true true, .writeNextValue false true, .writeOpenData 3 12,
          .writeDataItem [.int 1, .int 2, .int 3] 12, .writeCloseData 3 12] } ∧
    run Sink.accepting [.arr (-1) 0, .data 4 [.int 1, .int 2, .int 3] useDefaultSize]
        BaseJSONWriter.new = .ok
      { blocks := [{ type := .ROOT, capacity := -1, size := 1, maxLineSize := 0, lineSize := 1,
                     wroteKey := false }]
        block := { type := .ARRAY, capacity := -1, size := 1, maxLineSize := 0, lineSize := 1,
                   wroteKey := false }
        defaultDataLineSize := 32
        calls := [.writeNextValue true true, .writeOpenArray true (-1) false,
          .writeNextValue true true, .writeOpenData 3 12,
          .writeDataItem [.int 1, .int 2, .int 3] 12, .writeCloseData 3 12] } ∧
    run Sink.base [.arr (-1) 0, .valArray 4 [.int 1, .int 2, .int 3]]
        BaseJSONWriter.new = .ok
      { blocks := [{ type := .ROOT, capacity := -1, size := 1, maxLineSize := 0, lineSize := 1,
                     wroteKey := false }]
        block := { type := .ARRAY, capacity := -1, size := 3, maxLineSize := 0, lineSize := 1,
                   wroteKey := false }
        defaultDataLineSize := 32
        calls := [.writeNextValue true true, .writeOpenArray true (-1) false,
          .writeNextValue true true, .writeNextValue false true, .writeOpenData 3 12,
          .writeNextValue false true, .writeOpenArray false 3 true,
          .writeNextValue true false, .writeValue (.int 1) false,
          .writeNextValue false false, .writeValue (.int 2) false,
          .writeNextValue false false, .writeValue (.int 3) false,
          .writeCloseArray false 3 true] } ∧
    run Sink.accepting [.arr 1 0, .valArray 4 [.int 1, .int 2, .int 3]]
        BaseJSONWriter.new = .error .capacityExceeded ∧
    (∃ w1, run Sink.accepting [.arr 1 0, .data 4 [.int 1, .int 2, .int 3] useDefaultSize, .end_]
        BaseJSONWriter.new = .ok w1) :=
  ⟨by rfl, by rfl, by rfl, by rfl, ⟨_, by rfl⟩⟩

/-! ## Nested containers -/

theorem run_nesting (sink : Sink) (ops : List Op) :
    ∀ (d d1 : Nat) (w1 w2 : BaseJSONWriter) (pre base : List Block),
      nesting d ops = some d1 → run sink ops w1 = .ok w2 → w1.blocks = pre ++ base →
      pre.length = d → ∃ pre1, w2.blocks = pre1 ++ base ∧ pre1.length = d1 := by
  induction ops with
  | nil =>
    intro d d1 w1 w2 pre base hn hr hb hl
    simp only [nesting, Option.some.injEq] at hn
    simp only [run, Except.ok.injEq] at hr
    exact ⟨pre, by rw [← hr, hb], by rw [hl, hn]⟩
  | cons op ops ih =>
    intro d d1 w1 w2 pre base hn hr hb hl
    unfold run at hr
    cases hs : step sink op w1 with
    | error e => simp [hs] at hr
    | ok wm =>
      simp only [hs] at hr
      rcases step_blocks sink op w1 wm hs with ⟨ho, b, hpush⟩ | ⟨hc, hpop⟩ | ⟨ho, hc, hsame⟩
      · simp only [nesting, ho, if_true] at hn
        exact ih (d + 1) d1 wm w2 (b :: pre) base hn hr (by rw [hpush, hb]; rfl)
          (by simp [hl])
      · have ho : op.opens = false := by cases op <;> simp_all [Op.opens, Op.closes]
        simp only [nesting, ho, hc, Bool.false_eq_true, if_false, if_true] at hn
        cases d with
        | zero => simp at hn
        | succ d0 =>
          simp only at hn
          cases pre with
          | nil => simp at hl
          | cons x pre0 =>
            rw [hb] at hpop
            simp only [List.cons_append, List.cons.injEq] at hpop
            exact ih d0 d1 wm w2 pre0 base hn hr hpop.2.symm (by simpa using hl)
      · simp only [nesting, ho, hc, Bool.false_eq_true, if_false] at hn
        exact ih d d1 wm w2 pre base hn hr (by rw [hsame, hb]) hl

/-- C22. A nested container is one value of its parent.  The calls `obj(c, l)` and `arr(c, l)`
are `openBlock` of their kind.  With an Array current, the open is subject to the Array's
capacity check ("Block capacity exceeded" when the Array is full); otherwise it saves the Array
frame with its size grown by exactly 1 and makes one `writeNextValue` followed by the open call.
With an Object with an outstanding key current, the open saves the Object frame with no
outstanding key and its size and line counter unchanged, and makes the open call only.  In both
cases, after any calls that open and close containers in balance and succeed, a successful
`end()` makes the saved parent current again as it was saved, over the frames that were saved
before the open. -/
theorem nested_container_is_one_value (sink : Sink) (type : BlockType) (capacity : Int)
    (lineSize : Nat) (w : BaseJSONWriter) (hty : type = .OBJECT ∨ type = .ARRAY) :
    (obj capacity lineSize w = openBlock .OBJECT capacity lineSize w ∧
      arr capacity lineSize w = openBlock .ARRAY capacity lineSize w) ∧
    (w.block.type = .ARRAY → ¬ (w.block.capacity < 0 ∨ w.block.size < w.block.capacity) →
      openBlock type capacity lineSize w = .error .capacityExceeded) ∧
    (w.block.type = .ARRAY → (w.block.capacity < 0 ∨ w.block.size < w.block.capacity) →
      openBlock type capacity lineSize w = .ok
        { blocks :=
            { w.block with
              size := w.block.size + 1
              lineSize := if (w.block.lineSize + 1) % 4294967296 > w.block.maxLineSize then 1
                else (w.block.lineSize + 1) % 4294967296 } :: w.blocks
          block := Block.new type capacity lineSize
          defaultDataLineSize := w.defaultDataLineSize
          calls := w.calls ++
            [.writeNextValue (decide (w.block.size = 0))
                (decide ((w.block.lineSize + 1) % 4294967296 > w.block.maxLineSize)),
              if type = .OBJECT then
                .writeOpenObject (decide (capacity < 0)) capacity
                  (decide (0 ≤ capacity ∧ capacity ≤ (lineSize : Int)))
              else
                .writeOpenArray (decide (capacity < 0)) capacity
                  (decide (0 ≤ capacity ∧ capacity ≤ (lineSize : Int)))] }) ∧
    (w.block.type = .OBJECT → w.block.wroteKey = true →
      openBlock type capacity lineSize w = .ok
        { blocks := { w.block with wroteKey := false } :: w.blocks
          block := Block.new type capacity lineSize
          defaultDataLineSize := w.defaultDataLineSize
          calls := w.calls ++
            [if type = .OBJECT then
                .writeOpenObject (decide (capacity < 0)) capacity
                  (decide (0 ≤ capacity ∧ capacity ≤ (lineSize : Int)))
              else
                .writeOpenArray (decide (capacity < 0)) capacity
                  (decide (0 ≤ capacity ∧ capacity ≤ (lineSize : Int)))] }) ∧
    (∀ (w1 : BaseJSONWriter) (ops : List Op) (w2 w3 : BaseJSONWriter),
      openBlock type capacity lineSize w = .ok w1 → nesting 0 ops = some 0 →
      run sink ops w1 = .ok w2 → end_ w2 = .ok w3 →
      ∃ parent, w1.blocks = parent :: w.blocks ∧ w3.block = parent ∧ w3.blocks = w.blocks) := by
  refine ⟨⟨rfl, rfl⟩, ?_, ?_, ?_, ?_⟩
  · intro ht hc
    have hne : w.block.type ≠ .OBJECT := by simp [ht]
    rcases hty with rfl | rfl <;>
      simp [openBlock, recordValue_not_object w true true hne,
        nextValue_array_full true w ht hc]
  · intro ht hc
    have hne : w.block.type ≠ .OBJECT := by simp [ht]
    rcases hty with rfl | rfl <;>
      simp [openBlock, recordValue_not_object w true true hne, nextValue_array true w ht hc,
        emit, Block.next, Block.separator, Block.new]
  · intro ht hk
    rcases hty with rfl | rfl <;>
      simp [openBlock, recordValue_value w true true ht hk, emit, Block.new]
  · intro w1 ops w2 w3 ho hn hr he
    obtain ⟨parent, hp⟩ := openBlock_blocks type capacity lineSize w w1 ho
    obtain ⟨pre1, h1, h2⟩ := run_nesting sink ops 0 0 w1 w2 [] (parent :: w.blocks) hn hr
      (by rw [hp]; rfl) rfl
    have hnil : pre1 = [] := List.length_eq_zero.mp h2
    rw [hnil, List.nil_append] at h1
    have hpop := closeBlock_blocks w2 w3 he
    rw [h1] at hpop
    simp only [List.cons.injEq] at hpop
    exact ⟨parent, hp, hpop.1.symm, hpop.2.symm⟩

/-- C22, witness: in the array opened on a fresh writer, `arr()` saves the array with size 1
after one `writeNextValue`; after a value in the inner array and `end()` that frame is current
again. -/
theorem nested_container_is_one_value_witness :
    openBlock .ARRAY (-1) 0
        { blocks := [{ type := .ROOT, capacity := -1, size := 1, maxLineSize := 0, lineSize := 1,
                       wroteKey := false }]
          block := Block.new .ARRAY (-1) 0
          defaultDataLineSize := 32
          calls := [.writeNextValue true true, .writeOpenArray true (-1) false] }
      = .ok
        { blocks := [{ type := .ARRAY, capacity := -1, size := 1, maxLineSize := 0,
                       lineSize := 1, wroteKey := false },
                     { type := .ROOT, capacity := -1, size := 1, maxLineSize := 0, lineSize := 1,
                       wroteKey := false }]
          block := Block.new .ARRAY (-1) 0
          defaultDataLineSize := 32
          calls := [.writeNextValue true true, .writeOpenArray true (-1) false,
            .writeNextValue true true, .writeOpenArray true (-1) false] } ∧
    run Sink.base [.arr (-1) 0, .arr (-1) 0, .val (.int 1), .end_] BaseJSONWriter.new
      = .ok
        { blocks := [{ type := .ROOT, capacity := -1, size := 1, maxLineSize := 0, lineSize := 1,
                       wroteKey := false }]
          block := { type := .ARRAY, capacity := -1, size := 1, maxLineSize := 0,
                     lineSize := 1, wroteKey := false }
          defaultDataLineSize := 32
          calls := [.writeNextValue true true, .writeOpenArray true (-1) false,
            .writeNextValue true true, .writeOpenArray true (-1) false,
            .writeNextValue true true, .writeValue (.int 1) false,
            .writeCloseArray true 1 false] } :=
  ⟨(nested_container_is_one_value Sink.base .ARRAY (-1) 0
      { blocks := [{ type := .ROOT, capacity := -1, size := 1, maxLineSize := 0, lineSize := 1,
                     wroteKey := false }]
        block := Block.new .ARRAY (-1) 0
        defaultDataLineSize := 32
        calls := [.writeNextValue true true, .writeOpenArray true (-1) false] }
      (Or.inr rfl)).2.2.1 rfl (Or.inl (by decide)),
   by rfl⟩

end json
